import Mathlib

/-!
# Spaceship game: a shallow embedding of `app.js`

The game core of `app.js` (craft physics, obstacle spawning and retirement,
collision detection, scoring, best-score persistence and the game-state
machine) is embedded as pure functions on an explicit `State`.

Modelling conventions.
* JavaScript numbers are exact rationals (`ℚ`); counters that only ever hold
  non-negative integers (`score`, `frameCount`) are `ℕ`.
* `gameCanvas.width` and `gameCanvas.height` are unsigned integers and are
  passed around as a `Canvas` (the canvas size is fixed during a run).
* `Math.random()` is an input: a rational `r` with `0 ≤ r < 1` (`UnitDraw`).
* `requestAnimationFrame` / `cancelAnimationFrame` act on a list of pending
  callback ids, `localStorage` on one stored string plus a log of `setItem`
  calls.
* Drawing, panel visibility and sound have no effect on the modelled state.
-/

namespace Spaceshipgame

/-! ## Data model -/

/-- Values of the variable `gameState`. -/
inductive GameState
  | home
  | playing
  | paused
  | gameOver
  deriving DecidableEq, Repr

/-- The value of `highscore`: an integer, or `NaN` (which `parseInt` can
produce at load time). -/
inductive JsInt
  | nan
  | int (n : ℤ)
  deriving DecidableEq, Repr

/-- Size of `gameCanvas`. -/
structure Canvas where
  width : ℕ
  height : ℕ
  deriving DecidableEq, Repr

/-- One result of `Math.random()`. -/
structure UnitDraw where
  val : ℚ
  nonneg : 0 ≤ val
  lt_one : val < 1

/-- The object `Spaceship` (its mutable and immutable numeric properties). -/
structure Spaceship where
  x : ℚ
  y : ℚ
  width : ℚ
  height : ℚ
  verticalVelocity : ℚ
  isThrusting : Bool
  deriving DecidableEq

/-- Instances of `class Obstacle`. -/
structure Obstacle where
  x : ℚ
  y : ℚ
  width : ℚ
  height : ℚ
  isPassed : Bool
  deriving DecidableEq

/-- The module-level variables of `app.js` together with the parts of the
browser environment they interact with. -/
structure State where
  gameState : GameState
  score : ℕ
  highscore : JsInt
  frameCount : ℕ
  animationFrameId : Option ℕ
  ship : Spaceship
  obstacles : List Obstacle
  -- ids of frame callbacks requested and neither fired nor cancelled
  pendingFrames : List ℕ
  -- the id the next `requestAnimationFrame` call returns
  nextFrameId : ℕ
  -- value stored under the key `spaceshipHighscore`, if any
  localStorage : Option String
  -- values passed to `localStorage.setItem`, oldest first
  setItemLog : List String
  deriving DecidableEq

/-! ## Constants -/

def SpaceThrustPower : ℚ := 2 / 10
def GravityPull : ℚ := 1 / 10
def MaxVerticalVelocity : ℚ := 8
def obstacleSpawnInterval : ℕ := 120
def obstacleSpeed : ℚ := 2
def minObstacleGap : ℚ := 150
def maxObstacleGap : ℚ := 300

/-- The object literal `Spaceship` as created at load, for a given canvas. -/
def Spaceship.initial (c : Canvas) : Spaceship :=
  { x := 100, y := (c.height : ℚ) / 2, width := 60, height := 40,
    verticalVelocity := 0, isThrusting := false }

/-! ## Craft physics -/

/-- The first half of `Spaceship.update()`: gravity, thrust and the velocity
clamp; the value of `verticalVelocity` that is added to `y`. -/
def Spaceship.steppedVelocity (s : Spaceship) : ℚ :=
  let v1 := s.verticalVelocity + GravityPull
  let v2 := if s.isThrusting then v1 - SpaceThrustPower else v1
  min (max v2 (-MaxVerticalVelocity)) MaxVerticalVelocity

/-- Method `Spaceship.update()`. -/
def Spaceship.update (c : Canvas) (s : Spaceship) : Spaceship :=
  let v3 := s.steppedVelocity
  let y1 := s.y + v3
  let s1 : Spaceship := { s with verticalVelocity := v3, y := y1 }
  let s2 : Spaceship :=
    if s1.y < s1.height / 2 then
      { s1 with y := s1.height / 2, verticalVelocity := 0 }
    else s1
  if s2.y > (c.height : ℚ) - s2.height / 2 then
    { s2 with y := (c.height : ℚ) - s2.height / 2, verticalVelocity := 0 }
  else s2

/-- Method `Spaceship.startThrust()`. -/
def Spaceship.startThrust (s : Spaceship) : Spaceship :=
  { s with isThrusting := true }

/-- Method `Spaceship.stopThrust()`. -/
def Spaceship.stopThrust (s : Spaceship) : Spaceship :=
  { s with isThrusting := false }

/-- Method `Spaceship.reset()`. -/
def Spaceship.reset (c : Canvas) (s : Spaceship) : Spaceship :=
  { s with y := (c.height : ℚ) / 2, verticalVelocity := 0, isThrusting := false }

/-! ## Obstacles -/

/-- Constructor `new Obstacle(x, y, width, height)`. -/
def Obstacle.new (x y width height : ℚ) : Obstacle :=
  { x := x, y := y, width := width, height := height, isPassed := false }

/-- Method `Obstacle.update()`. -/
def Obstacle.update (o : Obstacle) : Obstacle :=
  { o with x := o.x - obstacleSpeed }

/-- The two obstacles built by `generateNewObstaclePair()`; `r1` is the first
`Math.random()` result (gap size), `r2` the second (top height). -/
def newObstaclePair (c : Canvas) (r1 r2 : UnitDraw) : Obstacle × Obstacle :=
  let gapSize := r1.val * (maxObstacleGap - minObstacleGap) + minObstacleGap
  let topHeight := r2.val * ((c.height : ℚ) - gapSize - 50) + 25
  let obstacleWidth : ℚ := 40
  let topObstacle := Obstacle.new (c.width : ℚ) 0 obstacleWidth topHeight
  let bottomObstacle := Obstacle.new (c.width : ℚ) (topHeight + gapSize) obstacleWidth
    ((c.height : ℚ) - (topHeight + gapSize))
  (topObstacle, bottomObstacle)

/-- Function `generateNewObstaclePair()`: `obstacles.push(topObstacle, bottomObstacle)`. -/
def generateNewObstaclePair (c : Canvas) (r1 r2 : UnitDraw) (s : State) : State :=
  let p := newObstaclePair c r1 r2
  { s with obstacles := s.obstacles ++ [p.1, p.2] }

/-! ## Collision detection -/

/-- Function `checkCollision(ship, obstacle)`. -/
def checkCollision (ship : Spaceship) (obstacle : Obstacle) : Bool :=
  let shipLeft := ship.x - ship.width / 2
  let shipRight := ship.x
  let shipTop := ship.y - ship.height / 2
  let shipBottom := ship.y + ship.height / 2
  let obsLeft := obstacle.x
  let obsRight := obstacle.x + obstacle.width
  let obsTop := obstacle.y
  let obsBottom := obstacle.y + obstacle.height
  if decide (shipRight > obsLeft) && decide (shipLeft < obsRight) &&
      decide (shipBottom > obsTop) && decide (shipTop < obsBottom) then
    true
  else
    false

/-! ## Browser environment -/

/-- Browser call `requestAnimationFrame(gameLoop)`: registers a callback under a fresh id,
which is assigned to `animationFrameId` at both call sites. -/
def requestAnimationFrame (s : State) : State :=
  { s with animationFrameId := some s.nextFrameId,
           pendingFrames := s.pendingFrames ++ [s.nextFrameId],
           nextFrameId := s.nextFrameId + 1 }

/-- Browser call `cancelAnimationFrame(animationFrameId)`. -/
def cancelAnimationFrame (s : State) : State :=
  match s.animationFrameId with
  | none => s
  | some id => { s with pendingFrames := s.pendingFrames.filter (fun j => j != id) }

/-- Browser call `localStorage.setItem('spaceshipHighscore', v)` for a numeric `v`; the
stored string is the decimal representation of `v`. -/
def setItem (v : ℕ) (s : State) : State :=
  { s with localStorage := some (Nat.repr v), setItemLog := s.setItemLog ++ [Nat.repr v] }

/-! ## Game state management -/

/-- Function `setGameState(state)` (panel visibility and score displays omitted). -/
def setGameState (state : GameState) (s : State) : State :=
  let s1 := { s with gameState := state }
  match state with
  | GameState.home => s1
  | GameState.playing => requestAnimationFrame s1
  | GameState.paused => cancelAnimationFrame s1
  | GameState.gameOver => s1

/-- The comparison `score > highscore`; any comparison with `NaN` is false. -/
def scoreExceeds (score : ℕ) : JsInt → Bool
  | JsInt.nan => false
  | JsInt.int h => decide ((score : ℤ) > h)

/-- Function `endGame()`. -/
def endGame (s : State) : State :=
  let s1 :=
    if scoreExceeds s.score s.highscore then
      setItem s.score { s with highscore := JsInt.int (s.score : ℤ) }
    else s
  setGameState GameState.gameOver s1

/-- Function `startGame()`. -/
def startGame (c : Canvas) (s : State) : State :=
  setGameState GameState.playing
    { s with score := 0, frameCount := 0, obstacles := [], ship := s.ship.reset c }

/-- Function `togglePause()`. -/
def togglePause (s : State) : State :=
  if s.gameState = GameState.playing then setGameState GameState.paused s
  else if s.gameState = GameState.paused then setGameState GameState.playing s
  else s

/-! ## The frame callback -/

/-- The `for (let i = obstacles.length - 1; i >= 0; i--)` loop of `gameLoop`.
`obstacleLoop (i + 1) s` runs the iterations for the indices `i, i - 1, …, 0`
from state `s`. The second component tells whether the loop was left through
the `return` after `endGame()`. The index is always in range (only elements
at indices `≥ i` are ever spliced out); reading past the end would raise a
`TypeError`, which also abandons the callback. -/
def obstacleLoop : ℕ → State → State × Bool
  | 0, s => (s, false)
  | i + 1, s =>
    match s.obstacles[i]? with
    | none => (s, true)
    | some obstacle =>
      -- obstacle.update()
      let o1 := obstacle.update
      -- if (obstacle.x + obstacle.width < Spaceship.x && !obstacle.isPassed)
      let passes : Bool := decide (o1.x + o1.width < s.ship.x) && !o1.isPassed
      let o2 : Obstacle := if passes then { o1 with isPassed := true } else o1
      let score := if passes && decide (i % 2 = 0) then s.score + 1 else s.score
      let s1 : State := { s with obstacles := s.obstacles.set i o2, score := score }
      -- if (checkCollision(Spaceship, obstacle)) { endGame(); return; }
      if checkCollision s1.ship o2 then (endGame s1, true)
      else
        -- if (obstacle.x + obstacle.width < 0) obstacles.splice(i, 1)
        let s2 : State :=
          if o2.x + o2.width < 0 then { s1 with obstacles := s1.obstacles.eraseIdx i }
          else s1
        obstacleLoop i s2

/-- Function `gameLoop()`; `r1`, `r2` are the results of the two
`Math.random()` calls of `generateNewObstaclePair()` should it be called. -/
def gameLoop (c : Canvas) (r1 r2 : UnitDraw) (s : State) : State :=
  if s.gameState ≠ GameState.playing then s
  else
    let s1 : State := { s with ship := s.ship.update c }
    let s2 : State :=
      if s1.frameCount % obstacleSpawnInterval = 0 then generateNewObstaclePair c r1 r2 s1
      else s1
    match obstacleLoop s2.obstacles.length s2 with
    | (s3, true) => s3
    | (s3, false) => requestAnimationFrame { s3 with frameCount := s3.frameCount + 1 }

/-! ## Input events -/

/-- The `keydown` (space / ArrowUp) and `touchstart` listeners. -/
def onThrustStart (s : State) : State :=
  if s.gameState = GameState.playing then { s with ship := s.ship.startThrust } else s

/-- The `keyup` (space / ArrowUp) and `touchend` listeners. -/
def onThrustEnd (s : State) : State :=
  if s.gameState = GameState.playing then { s with ship := s.ship.stopThrust } else s

/-- What can happen to the game between page load and page unload, for a
fixed canvas size. -/
inductive Event
  -- one invocation of `gameLoop`
  | tick (r1 r2 : UnitDraw)
  -- the `p` key, the pause button or the resume button
  | pauseToggle
  | thrustStart
  | thrustEnd
  -- the start button or the replay button
  | startOrReplay

/-- The effect of one event. -/
def step (c : Canvas) : Event → State → State
  | Event.tick r1 r2, s => gameLoop c r1 r2 s
  | Event.pauseToggle, s => togglePause s
  | Event.thrustStart, s => onThrustStart s
  | Event.thrustEnd, s => onThrustEnd s
  | Event.startOrReplay, s => startGame c s

/-- The effect of a sequence of events, oldest first. -/
def run (c : Canvas) : List Event → State → State
  | [], s => s
  | e :: es, s => run c es (step c e s)

/-- States of a run: `startGame()` has been called, and any events followed. -/
inductive Reachable (c : Canvas) : State → Prop
  | start (s0 : State) : Reachable c (startGame c s0)
  | step (e : Event) {s : State} : Reachable c s → Reachable c (step c e s)

/-! ## Loading the best score -/

/-- The characters `parseInt` skips at the start of its input
(ECMAScript `StrWhiteSpaceChar`). -/
def isStrWhiteSpaceChar (ch : Char) : Bool :=
  let n := ch.toNat
  n == 0x09 || n == 0x0A || n == 0x0B || n == 0x0C || n == 0x0D || n == 0x20 ||
  n == 0xA0 || n == 0x1680 || (0x2000 ≤ n && n ≤ 0x200A) || n == 0x2028 ||
  n == 0x2029 || n == 0x202F || n == 0x205F || n == 0x3000 || n == 0xFEFF

/-- Value of a string of decimal digits, most significant first. -/
def digitsValue (ds : List Char) : ℕ :=
  ds.foldl (fun acc d => 10 * acc + (d.toNat - 48)) 0

/-- The built-in `parseInt(string, 10)` on the characters of `string`: leading
white space is skipped, one sign (`-`, code 45, or `+`, code 43) is accepted,
the longest leading run of decimal digits is read, and the result is `NaN` when that run is empty. (Results
beyond the exactly representable integers are not rounded here.) -/
def parseInt10 (input : List Char) : JsInt :=
  let trimmed := input.dropWhile isStrWhiteSpaceChar
  let negative : Bool := trimmed.head? == some (Char.ofNat 45)
  let unsigned :=
    if trimmed.head? == some (Char.ofNat 45) || trimmed.head? == some (Char.ofNat 43) then
      trimmed.tail
    else trimmed
  let z := unsigned.takeWhile Char.isDigit
  if z.isEmpty then JsInt.nan
  else if negative then JsInt.int (-(digitsValue z : ℤ))
  else JsInt.int (digitsValue z : ℤ)

/-- The module-level variables right after the script has been evaluated, in
a browser whose storage holds `stored` under `spaceshipHighscore`. -/
def initialState (c : Canvas) (stored : Option String) : State :=
  { gameState := GameState.home, score := 0, highscore := JsInt.int 0, frameCount := 0,
    animationFrameId := none, ship := Spaceship.initial c, obstacles := [],
    pendingFrames := [], nextFrameId := 0, localStorage := stored, setItemLog := [] }

/-- The `load` listener: `resizeCanvas()`, the best-score load and
`setGameState('home')`. -/
def onLoad (c : Canvas) (s : State) : State :=
  -- resizeCanvas(): Spaceship.y = gameCanvas.height / 2
  let s1 : State := { s with ship := { s.ship with y := (c.height : ℚ) / 2 } }
  -- const savedHighscore = localStorage.getItem('spaceshipHighscore')
  let s2 : State :=
    match s1.localStorage with
    | none => s1
    | some savedHighscore => { s1 with highscore := parseInt10 savedHighscore.toList }
  setGameState GameState.home s2

/-! ## Auxiliary definitions used in the statements and proofs -/

/-- The state in which the obstacle loop of a tick starts: the craft has been
updated and, on spawn frames, the new pair has been pushed. -/
def afterSpawn (c : Canvas) (r1 r2 : UnitDraw) (s : State) : State :=
  if s.frameCount % obstacleSpawnInterval = 0 then
    generateNewObstaclePair c r1 r2 { s with ship := s.ship.update c }
  else { s with ship := s.ship.update c }

/-- The events C9 delivers while the game is paused: `gameLoop` invocations
and thrust-start / thrust-end inputs. -/
def Event.isTickOrThrust : Event → Bool
  | Event.tick _ _ => true
  | Event.thrustStart => true
  | Event.thrustEnd => true
  | Event.pauseToggle => false
  | Event.startOrReplay => false

/-- What one iteration of the obstacle loop leaves of an obstacle that does
not collide: it has been advanced, and flagged as passed once its right edge
is behind the craft's nose `shipX`. -/
def processed (shipX : ℚ) (o : Obstacle) : Obstacle :=
  if decide (o.update.x + o.update.width < shipX) && !o.update.isPassed then
    { o.update with isPassed := true }
  else o.update

/-- The pass test of the obstacle loop, on the obstacle before it advances. -/
def passesNow (shipX : ℚ) (o : Obstacle) : Bool :=
  decide (o.update.x + o.update.width < shipX) && !o.update.isPassed

/-- Number of score increments the obstacle loop makes on a list whose first
element sits at index `i`. -/
def scoreGainFrom (shipX : ℚ) : ℕ → List Obstacle → ℕ
  | _, [] => 0
  | i, o :: l =>
    (if passesNow shipX o && decide (i % 2 = 0) then 1 else 0) + scoreGainFrom shipX (i + 1) l

/-- The obstacles that survive the off-screen test `x + width < 0`. -/
def retained (l : List Obstacle) : List Obstacle :=
  l.filter (fun o => !decide (o.x + o.width < 0))

/-- The rectangle of an obstacle: `(x, y, width, height)`. -/
def Obstacle.box (o : Obstacle) : ℚ × ℚ × ℚ × ℚ := (o.x, o.y, o.width, o.height)

/-- The obstacles a tick works on: those live before it, followed by the pair
pushed at a spawn frame. -/
def liveInTick (c : Canvas) (r1 r2 : UnitDraw) (s : State) : List Obstacle :=
  s.obstacles ++
    (if s.frameCount % obstacleSpawnInterval = 0 then
      [(newObstaclePair c r1 r2).1, (newObstaclePair c r1 r2).2]
    else [])

/-- The obstacle list made of the given pairs, top member first. -/
def flattenPairs : List (Obstacle × Obstacle) → List Obstacle
  | [] => []
  | p :: ps => p.1 :: p.2 :: flattenPairs ps

/-- The pairs of an obstacle list by index parity: the elements at indices
`2k` and `2k + 1` form the `k`-th pair. -/
def pairsOf : List Obstacle → List (Obstacle × Obstacle)
  | a :: b :: rest => (a, b) :: pairsOf rest
  | _ => []

/-- Both members of a pair after `Obstacle.update()`. -/
def advancePair (p : Obstacle × Obstacle) : Obstacle × Obstacle :=
  (p.1.update, p.2.update)

/-- The right edge `x + width` of the pair is strictly less than `shipX`
(for both of its members). -/
def pairBehind (shipX : ℚ) (p : Obstacle × Obstacle) : Bool :=
  decide (p.1.x + p.1.width < shipX) && decide (p.2.x + p.2.width < shipX)

/-- Number of pairs whose right edge first becomes strictly less than
`Spaceship.x` in the tick that starts in `s`: the pairs live before the tick
that were not behind the nose and are behind it once advanced, plus the pair
spawned in this tick if it is behind the nose once advanced. -/
def newlyPassedPairs (c : Canvas) (r1 r2 : UnitDraw) (s : State) : ℕ :=
  (pairsOf s.obstacles).countP
      (fun p => !pairBehind s.ship.x p && pairBehind s.ship.x (advancePair p)) +
    (if s.frameCount % obstacleSpawnInterval = 0 ∧
        pairBehind s.ship.x (advancePair (newObstaclePair c r1 r2)) = true then 1 else 0)

/-- What holds of every pair of the live list between ticks: its members
share `x`, `width` and the passed flag, the first member is the top obstacle,
and the flag tells whether the right edge is behind the nose `shipX`. -/
def GoodPair (shipX : ℚ) (p : Obstacle × Obstacle) : Prop :=
  p.1.x = p.2.x ∧ p.1.width = p.2.width ∧ p.1.isPassed = p.2.isPassed ∧ p.1.y = 0 ∧
    p.1.isPassed = decide (p.1.x + p.1.width < shipX)

/-- The live list consists of good pairs. -/
def PairedInv (shipX : ℚ) (l : List Obstacle) : Prop :=
  ∃ ps : List (Obstacle × Obstacle), l = flattenPairs ps ∧ ∀ p ∈ ps, GoodPair shipX p

/-- A `Math.random()` result of `0`. -/
def zeroDraw : UnitDraw := ⟨0, le_refl 0, zero_lt_one⟩

/-- A `Math.random()` result of `1/2`. -/
def halfDraw : UnitDraw := ⟨1 / 2, by norm_num, by norm_num⟩

/-- An 800 × 600 canvas. -/
def sampleCanvas : Canvas := ⟨800, 600⟩

/-- The state right after the first `startGame()` on the sample canvas with
empty storage. -/
def sampleStart : State := startGame sampleCanvas (initialState sampleCanvas none)

/-- A canvas narrower than the craft's nose position. -/
def narrowCanvas : Canvas := ⟨50, 600⟩

/-- The state right after the first `startGame()` on the narrow canvas. -/
def narrowStart : State := startGame narrowCanvas (initialState narrowCanvas none)

/-- A playing state, between spawn frames, whose first pair is about to leave
the canvas on the left. -/
def retiringState : State :=
  { sampleStart with
    frameCount := 1,
    obstacles := [⟨-39, 0, 40, 200, true⟩, ⟨-39, 400, 40, 200, true⟩,
                  ⟨201, 0, 40, 100, false⟩, ⟨201, 300, 40, 300, false⟩] }

/-- The craft of the game (nose at `x = 100`, 60 wide, 40 high) at `y = 300`. -/
def sampleShip : Spaceship :=
  { x := 100, y := 300, width := 60, height := 40, verticalVelocity := 0, isThrusting := false }

/-- A top obstacle occupying `[20, 60] × [0, 400]`, already behind the craft's
tail at `x = 70`. -/
def clearedObstacle : Obstacle :=
  { x := 20, y := 0, width := 40, height := 400, isPassed := true }

/-- An axis-aligned rectangle given by its four edges. -/
structure Box where
  left : ℚ
  right : ℚ
  top : ℚ
  bottom : ℚ
  deriving DecidableEq

/-- The craft box of `checkCollision`: `shipLeft`, `shipRight`, `shipTop`,
`shipBottom`. -/
def Spaceship.hitBox (ship : Spaceship) : Box :=
  { left := ship.x - ship.width / 2, right := ship.x,
    top := ship.y - ship.height / 2, bottom := ship.y + ship.height / 2 }

/-- The obstacle box of `checkCollision`: `obsLeft`, `obsRight`, `obsTop`,
`obsBottom`. -/
def Obstacle.hitBox (obstacle : Obstacle) : Box :=
  { left := obstacle.x, right := obstacle.x + obstacle.width,
    top := obstacle.y, bottom := obstacle.y + obstacle.height }

/-- The ship whose collision box is the rectangle of `clearedObstacle`. -/
def swappedShip : Spaceship :=
  { x := 60, y := 200, width := 80, height := 400, verticalVelocity := 0, isThrusting := false }

/-- The obstacle whose rectangle is the collision box of `sampleShip`. -/
def swappedObstacle : Obstacle :=
  { x := 70, y := 280, width := 30, height := 40, isPassed := false }

/-- A wall-to-wall obstacle that contains the collision box of `sampleShip`. -/
def engulfingObstacle : Obstacle :=
  { x := 50, y := 0, width := 100, height := 600, isPassed := false }

/-- The events of C13: the inputs of the page and the browser running a frame
callback it holds. -/
inductive BrowserEvent
  -- a click on the start button or on the replay button
  | startOrReplayClick
  -- the `p` key, the pause button or the resume button
  | pauseToggle
  | thrustStart
  | thrustEnd
  -- the browser runs the callback registered under `id`
  | frame (id : ℕ) (r1 r2 : UnitDraw)

/-- The browser runs the frame callback registered under `id`, if it is still
pending: the callback leaves the pending list and `gameLoop` is executed. -/
def fireFrame (c : Canvas) (id : ℕ) (r1 r2 : UnitDraw) (s : State) : State :=
  if id ∈ s.pendingFrames then
    gameLoop c r1 r2 { s with pendingFrames := s.pendingFrames.erase id }
  else s

/-- The effect of one browser event. -/
def browserStep (c : Canvas) : BrowserEvent → State → State
  | BrowserEvent.startOrReplayClick, s => startGame c s
  | BrowserEvent.pauseToggle, s => togglePause s
  | BrowserEvent.thrustStart, s => onThrustStart s
  | BrowserEvent.thrustEnd, s => onThrustEnd s
  | BrowserEvent.frame id r1 r2, s => fireFrame c id r1 r2 s

/-- The effect of a sequence of browser events, oldest first. -/
def browserRun (c : Canvas) : List BrowserEvent → State → State
  | [], s => s
  | e :: es, s => browserRun c es (browserStep c e s)

/-- Whether the event is a click on the start or replay button. -/
def BrowserEvent.isClick : BrowserEvent → Bool
  | BrowserEvent.startOrReplayClick => true
  | _ => false

/-- States reachable from the home state shown after page load by browser
events, where the start and replay buttons are not clicked while the game is
playing (their panels are hidden then). -/
inductive BrowserReachable (c : Canvas) : State → Prop
  | load (c0 : Canvas) (stored : Option String) :
      BrowserReachable c (onLoad c (initialState c0 stored))
  | step (e : BrowserEvent) {s : State} :
      BrowserReachable c s → (e.isClick = true → s.gameState ≠ GameState.playing) →
      BrowserReachable c (browserStep c e s)

/-- The home state shown after page load on the sample canvas. -/
def sampleHome : State := onLoad sampleCanvas (initialState sampleCanvas none)

/-- A `Math.random()` result of `3/4`. -/
def threeQuarterDraw : UnitDraw := ⟨3 / 4, by norm_num, by norm_num⟩

/-- Number of obstacles a tick retires: those live in the tick whose advanced
position has `x + width < 0`. -/
def retiredInTick (c : Canvas) (r1 r2 : UnitDraw) (s : State) : ℕ :=
  ((liveInTick c r1 r2 s).map Obstacle.update).countP (fun o => decide (o.x + o.width < 0))

/-- Number of pairs pushed by the tick that starts in `s`: half the number of
obstacles that the spawn step of `gameLoop` adds to the list (none when the
game is not playing and `gameLoop` returns at once). -/
def pairsSpawnedInTick (c : Canvas) (r1 r2 : UnitDraw) (s : State) : ℕ :=
  if s.gameState = GameState.playing then
    ((afterSpawn c r1 r2 s).obstacles.length - s.obstacles.length) / 2
  else 0

/-- Consecutive `gameLoop` ticks, one per pair of random draws. -/
def runTicks (c : Canvas) : List (UnitDraw × UnitDraw) → State → State
  | [], s => s
  | d :: ds, s => runTicks c ds (gameLoop c d.1 d.2 s)

/-- Number of pairs pushed during consecutive ticks. -/
def spawnsDuring (c : Canvas) : List (UnitDraw × UnitDraw) → State → ℕ
  | [], _ => 0
  | d :: ds, s => pairsSpawnedInTick c d.1 d.2 s + spawnsDuring c ds (gameLoop c d.1 d.2 s)

/-- The part of an obstacle that never changes after its creation:
`(y, width, height)`. -/
def Obstacle.shape (o : Obstacle) : ℚ × ℚ × ℚ := (o.y, o.width, o.height)

/-- The two obstacles are the top and the bottom obstacle built by one call of
`generateNewObstaclePair()`, for some pair of random draws. -/
def SpawnedTogether (c : Canvas) (p : Obstacle × Obstacle) : Prop :=
  ∃ r1 r2 : UnitDraw,
    p.1.shape = (newObstaclePair c r1 r2).1.shape ∧
    p.2.shape = (newObstaclePair c r1 r2).2.shape

/-- Both members of a pair after one iteration of the obstacle loop. -/
def processedPair (shipX : ℚ) (p : Obstacle × Obstacle) : Obstacle × Obstacle :=
  (processed shipX p.1, processed shipX p.2)

/-- What holds of the live list in every state of a run on canvas `c`: it is
made of pairs spawned together; while the game is playing or paused the pairs
are good, ordered by `x`, and none is right of the canvas edge. -/
def RunInv (c : Canvas) (s : State) : Prop :=
  ∃ ps : List (Obstacle × Obstacle),
    s.obstacles = flattenPairs ps ∧ (∀ p ∈ ps, SpawnedTogether c p) ∧
    ((s.gameState = GameState.playing ∨ s.gameState = GameState.paused) →
      (∀ p ∈ ps, GoodPair s.ship.x p) ∧
      ps.Pairwise (fun p q => p.1.x ≤ q.1.x) ∧
      (∀ p ∈ ps, p.1.x ≤ (c.width : ℚ)))

/-- A `Math.random()` result of `0.363`: with gap 150 on a 600-high canvas it
puts the bottom obstacle's top edge at `y = 320.2`, just below the craft. -/
def grazingDraw : UnitDraw := ⟨363 / 1000, by norm_num, by norm_num⟩

/-- The run on the 50-wide canvas after its first tick (draws `0` and
`0.363`, no thrust). -/
def grazingAfterOne : State := gameLoop narrowCanvas zeroDraw grazingDraw narrowStart

/-- The same run after its second tick. -/
def grazingAfterTwo : State := gameLoop narrowCanvas zeroDraw zeroDraw grazingAfterOne

/-- The bottom obstacle of the pair of that run, as it is after the first
tick. -/
def grazingBottom : Obstacle :=
  { x := 48, y := 1601 / 5, width := 40, height := 1399 / 5, isPassed := true }

/-- The top obstacle of the pair of that run, as it is after the first tick. -/
def grazingTop : Obstacle :=
  { x := 48, y := 0, width := 40, height := 851 / 5, isPassed := true }

/-- The state after start, one frame, pause and resume on the sample canvas. -/
def sampleResumed : State :=
  browserStep sampleCanvas BrowserEvent.pauseToggle
    (browserStep sampleCanvas BrowserEvent.pauseToggle
      (browserStep sampleCanvas (BrowserEvent.frame 0 zeroDraw halfDraw)
        (browserStep sampleCanvas BrowserEvent.startOrReplayClick sampleHome)))

/-! ## Theorems -/

/-! ## Collision box -/

/-- Claim C2 (as written, refuted). The claim takes the craft box to reach
back to `ship.x − ship.width`. For the craft of the game at `y = 300` and an
obstacle occupying `[20, 60] × [0, 400]` the four inequalities of the claim
hold, yet `checkCollision` is false: its box only reaches back to
`ship.x − ship.width / 2 = 70`. -/
theorem checkCollision_full_width_box_refuted :
    checkCollision sampleShip clearedObstacle = false ∧
    (sampleShip.x > clearedObstacle.x ∧
     sampleShip.x - sampleShip.width < clearedObstacle.x + clearedObstacle.width ∧
     sampleShip.y + sampleShip.height / 2 > clearedObstacle.y ∧
     sampleShip.y - sampleShip.height / 2 < clearedObstacle.y + clearedObstacle.height) := by
  norm_num [checkCollision, sampleShip, clearedObstacle]

/-- Claim C2 (amended). `checkCollision(ship, obstacle)` is true exactly when the
craft box `[ship.x − ship.width/2, ship.x] × [ship.y − ship.height/2,
ship.y + ship.height/2]` strictly overlaps the obstacle box
`[obstacle.x, obstacle.x + obstacle.width] × [obstacle.y, obstacle.y +
obstacle.height]`. -/
theorem checkCollision_iff_half_width_box (ship : Spaceship) (obstacle : Obstacle) :
    checkCollision ship obstacle = true ↔
      (ship.x > obstacle.x ∧ ship.x - ship.width / 2 < obstacle.x + obstacle.width ∧
       ship.y + ship.height / 2 > obstacle.y ∧
       ship.y - ship.height / 2 < obstacle.y + obstacle.height) := by
  simp only [checkCollision, Bool.and_eq_true, decide_eq_true_eq, Bool.if_true_left,
    Bool.or_false, and_assoc, gt_iff_lt]

/-! ## Craft physics -/

lemma steppedVelocity_bounds (s : Spaceship) :
    -MaxVerticalVelocity ≤ s.steppedVelocity ∧ s.steppedVelocity ≤ MaxVerticalVelocity := by
  unfold Spaceship.steppedVelocity
  constructor
  · apply le_min
    · exact le_max_right _ _
    · norm_num [MaxVerticalVelocity]
  · exact min_le_right _ _

lemma update_height (c : Canvas) (s : Spaceship) : (s.update c).height = s.height := by
  unfold Spaceship.update
  dsimp only
  split_ifs <;> rfl

lemma update_x (c : Canvas) (s : Spaceship) : (s.update c).x = s.x := by
  unfold Spaceship.update
  dsimp only
  split_ifs <;> rfl

/-- Claim C3. If the viewport is at least as high as the craft, then after
`Spaceship.update()` the craft's `y` lies in `[height/2, viewportHeight −
height/2]`, and whenever the new position before the boundary checks (old `y`
plus the velocity just computed) was outside that interval, the velocity after
the update is `0`. -/
theorem update_keeps_craft_in_viewport (c : Canvas) (s : Spaceship)
    (hfit : s.height ≤ (c.height : ℚ)) :
    s.height / 2 ≤ (s.update c).y ∧
    (s.update c).y ≤ (c.height : ℚ) - s.height / 2 ∧
    ((s.y + s.steppedVelocity < s.height / 2 ∨
      (c.height : ℚ) - s.height / 2 < s.y + s.steppedVelocity) →
        (s.update c).verticalVelocity = 0) := by
  unfold Spaceship.update
  dsimp only
  refine ⟨?_, ?_, ?_⟩
  · split_ifs <;> dsimp only <;> linarith
  · split_ifs <;> dsimp only <;> linarith
  · intro h
    split_ifs <;> first | rfl | (exfalso; rcases h with h | h <;> linarith)

/-- A craft at the ceiling moving up at full speed is stopped there. -/
theorem update_keeps_craft_in_viewport_witness :
    ((40 : ℚ) ≤ ((600 : ℕ) : ℚ)) ∧
    ((40 : ℚ) / 2 ≤ (Spaceship.update ⟨800, 600⟩ ⟨100, 20, 60, 40, -8, true⟩).y ∧
     (Spaceship.update ⟨800, 600⟩ ⟨100, 20, 60, 40, -8, true⟩).y ≤ ((600 : ℕ) : ℚ) - 40 / 2 ∧
     (((20 : ℚ) + Spaceship.steppedVelocity ⟨100, 20, 60, 40, -8, true⟩ < 40 / 2 ∨
       ((600 : ℕ) : ℚ) - 40 / 2 < 20 + Spaceship.steppedVelocity ⟨100, 20, 60, 40, -8, true⟩) →
        (Spaceship.update ⟨800, 600⟩ ⟨100, 20, 60, 40, -8, true⟩).verticalVelocity = 0)) :=
  ⟨by norm_num, update_keeps_craft_in_viewport ⟨800, 600⟩ ⟨100, 20, 60, 40, -8, true⟩
    (by norm_num)⟩

lemma update_velocity_bounds (c : Canvas) (s : Spaceship) :
    -MaxVerticalVelocity ≤ (s.update c).verticalVelocity ∧
    (s.update c).verticalVelocity ≤ MaxVerticalVelocity := by
  have hb := steppedVelocity_bounds s
  unfold Spaceship.update
  dsimp only
  split_ifs <;> dsimp only <;> first | exact hb | norm_num [MaxVerticalVelocity]

/-! ## Fields left alone by the state-machine functions -/

@[simp]
lemma setGameState_gameState (g : GameState) (s : State) :
    (setGameState g s).gameState = g := by
  cases g <;> simp [setGameState, requestAnimationFrame, cancelAnimationFrame]
  split <;> rfl

@[simp]
lemma setGameState_ship (g : GameState) (s : State) :
    (setGameState g s).ship = s.ship := by
  cases g <;> simp [setGameState, requestAnimationFrame, cancelAnimationFrame]
  split <;> rfl

@[simp]
lemma setGameState_score (g : GameState) (s : State) :
    (setGameState g s).score = s.score := by
  cases g <;> simp [setGameState, requestAnimationFrame, cancelAnimationFrame]
  split <;> rfl

@[simp]
lemma setGameState_highscore (g : GameState) (s : State) :
    (setGameState g s).highscore = s.highscore := by
  cases g <;> simp [setGameState, requestAnimationFrame, cancelAnimationFrame]
  split <;> rfl

@[simp]
lemma setGameState_frameCount (g : GameState) (s : State) :
    (setGameState g s).frameCount = s.frameCount := by
  cases g <;> simp [setGameState, requestAnimationFrame, cancelAnimationFrame]
  split <;> rfl

@[simp]
lemma setGameState_obstacles (g : GameState) (s : State) :
    (setGameState g s).obstacles = s.obstacles := by
  cases g <;> simp [setGameState, requestAnimationFrame, cancelAnimationFrame]
  split <;> rfl

@[simp]
lemma setGameState_localStorage (g : GameState) (s : State) :
    (setGameState g s).localStorage = s.localStorage := by
  cases g <;> simp [setGameState, requestAnimationFrame, cancelAnimationFrame]
  split <;> rfl

@[simp]
lemma setGameState_setItemLog (g : GameState) (s : State) :
    (setGameState g s).setItemLog = s.setItemLog := by
  cases g <;> simp [setGameState, requestAnimationFrame, cancelAnimationFrame]
  split <;> rfl

@[simp]
lemma endGame_gameState (s : State) : (endGame s).gameState = GameState.gameOver := by
  simp [endGame]

@[simp]
lemma endGame_ship (s : State) : (endGame s).ship = s.ship := by
  simp only [endGame, setGameState_ship]
  split_ifs <;> rfl

@[simp]
lemma endGame_score (s : State) : (endGame s).score = s.score := by
  simp only [endGame, setGameState_score]
  split_ifs <;> rfl

@[simp]
lemma endGame_obstacles (s : State) : (endGame s).obstacles = s.obstacles := by
  simp only [endGame, setGameState_obstacles]
  split_ifs <;> rfl

@[simp]
lemma endGame_frameCount (s : State) : (endGame s).frameCount = s.frameCount := by
  simp only [endGame, setGameState_frameCount]
  split_ifs <;> rfl

lemma obstacleLoop_ship (n : ℕ) (s : State) : (obstacleLoop n s).1.ship = s.ship := by
  induction n generalizing s with
  | zero => rfl
  | succ i ih =>
    unfold obstacleLoop
    split
    · rfl
    · dsimp only
      split_ifs <;> simp [ih]

lemma gameLoop_of_playing (c : Canvas) (r1 r2 : UnitDraw) (s : State)
    (hp : s.gameState = GameState.playing) :
    gameLoop c r1 r2 s =
      match obstacleLoop (afterSpawn c r1 r2 s).obstacles.length (afterSpawn c r1 r2 s) with
      | (s3, true) => s3
      | (s3, false) => requestAnimationFrame { s3 with frameCount := s3.frameCount + 1 } := by
  unfold gameLoop
  rw [if_neg (by simp [hp])]
  rfl

lemma gameLoop_of_not_playing (c : Canvas) (r1 r2 : UnitDraw) (s : State)
    (hp : s.gameState ≠ GameState.playing) : gameLoop c r1 r2 s = s := by
  unfold gameLoop
  rw [if_pos hp]

@[simp]
lemma afterSpawn_ship (c : Canvas) (r1 r2 : UnitDraw) (s : State) :
    (afterSpawn c r1 r2 s).ship = s.ship.update c := by
  unfold afterSpawn generateNewObstaclePair
  split_ifs <;> rfl

@[simp]
lemma afterSpawn_score (c : Canvas) (r1 r2 : UnitDraw) (s : State) :
    (afterSpawn c r1 r2 s).score = s.score := by
  unfold afterSpawn generateNewObstaclePair
  split_ifs <;> rfl

@[simp]
lemma afterSpawn_gameState (c : Canvas) (r1 r2 : UnitDraw) (s : State) :
    (afterSpawn c r1 r2 s).gameState = s.gameState := by
  unfold afterSpawn generateNewObstaclePair
  split_ifs <;> rfl

@[simp]
lemma afterSpawn_highscore (c : Canvas) (r1 r2 : UnitDraw) (s : State) :
    (afterSpawn c r1 r2 s).highscore = s.highscore := by
  unfold afterSpawn generateNewObstaclePair
  split_ifs <;> rfl

lemma afterSpawn_obstacles (c : Canvas) (r1 r2 : UnitDraw) (s : State) :
    (afterSpawn c r1 r2 s).obstacles =
      if s.frameCount % obstacleSpawnInterval = 0 then
        s.obstacles ++ [(newObstaclePair c r1 r2).1, (newObstaclePair c r1 r2).2]
      else s.obstacles := by
  unfold afterSpawn generateNewObstaclePair
  split_ifs <;> rfl

lemma gameLoop_ship (c : Canvas) (r1 r2 : UnitDraw) (s : State)
    (hp : s.gameState = GameState.playing) :
    (gameLoop c r1 r2 s).ship = s.ship.update c := by
  rw [gameLoop_of_playing c r1 r2 s hp]
  have h := obstacleLoop_ship (afterSpawn c r1 r2 s).obstacles.length (afterSpawn c r1 r2 s)
  rw [afterSpawn_ship] at h
  split
  · next s3 heq => rw [heq] at h; exact h
  · next s3 heq => rw [heq] at h; exact h

lemma velocity_bounds_step (c : Canvas) (e : Event) (s : State)
    (h : -MaxVerticalVelocity ≤ s.ship.verticalVelocity ∧
      s.ship.verticalVelocity ≤ MaxVerticalVelocity) :
    -MaxVerticalVelocity ≤ (step c e s).ship.verticalVelocity ∧
      (step c e s).ship.verticalVelocity ≤ MaxVerticalVelocity := by
  cases e with
  | tick r1 r2 =>
    by_cases hp : s.gameState = GameState.playing
    · simp only [step, gameLoop_ship c r1 r2 s hp]
      exact update_velocity_bounds c s.ship
    · simp only [step, gameLoop_of_not_playing c r1 r2 s hp]
      exact h
  | pauseToggle =>
    simp only [step, togglePause]
    split_ifs <;> simpa using h
  | thrustStart =>
    simp only [step, onThrustStart]
    split_ifs <;> simpa [Spaceship.startThrust] using h
  | thrustEnd =>
    simp only [step, onThrustEnd]
    split_ifs <;> simpa [Spaceship.stopThrust] using h
  | startOrReplay =>
    simp [step, startGame, Spaceship.reset, MaxVerticalVelocity]

/-- Claim C4. After `Spaceship.update()` the vertical velocity lies in
`[−MaxVerticalVelocity, MaxVerticalVelocity] = [−8, 8]`, whatever the prior
velocity and thrust flag; hence it does so after every `gameLoop` tick from a
playing state, and in every state of every run. -/
theorem velocity_stays_clamped :
    (∀ (c : Canvas) (s : Spaceship),
      -8 ≤ (s.update c).verticalVelocity ∧ (s.update c).verticalVelocity ≤ 8) ∧
    (∀ (c : Canvas) (r1 r2 : UnitDraw) (s : State), s.gameState = GameState.playing →
      -8 ≤ (gameLoop c r1 r2 s).ship.verticalVelocity ∧
      (gameLoop c r1 r2 s).ship.verticalVelocity ≤ 8) ∧
    (∀ (c : Canvas) (s : State), Reachable c s →
      -8 ≤ s.ship.verticalVelocity ∧ s.ship.verticalVelocity ≤ 8) := by
  refine ⟨?_, ?_, ?_⟩
  · intro c s
    simpa [MaxVerticalVelocity] using update_velocity_bounds c s
  · intro c r1 r2 s hp
    rw [gameLoop_ship c r1 r2 s hp]
    simpa [MaxVerticalVelocity] using update_velocity_bounds c s.ship
  · intro c s hr
    have : -MaxVerticalVelocity ≤ s.ship.verticalVelocity ∧
        s.ship.verticalVelocity ≤ MaxVerticalVelocity := by
      induction hr with
      | start s0 => simp [startGame, Spaceship.reset, MaxVerticalVelocity]
      | step e _ ih => exact velocity_bounds_step c e _ ih
    simpa [MaxVerticalVelocity] using this

/-- The state right after the first `startGame()` on an 800 × 600 canvas is
part of a run and is playing; its velocity and the velocity after one more
tick are within the bounds. -/
theorem velocity_stays_clamped_witness :
    (sampleStart.gameState = GameState.playing ∧ Reachable sampleCanvas sampleStart) ∧
    ((-8 ≤ (gameLoop sampleCanvas zeroDraw zeroDraw sampleStart).ship.verticalVelocity ∧
      (gameLoop sampleCanvas zeroDraw zeroDraw sampleStart).ship.verticalVelocity ≤ 8) ∧
     (-8 ≤ sampleStart.ship.verticalVelocity ∧ sampleStart.ship.verticalVelocity ≤ 8)) :=
  ⟨⟨by simp [sampleStart, startGame], Reachable.start _⟩,
   velocity_stays_clamped.2.1 sampleCanvas zeroDraw zeroDraw sampleStart
     (by simp [sampleStart, startGame]),
   velocity_stays_clamped.2.2 sampleCanvas sampleStart (Reachable.start _)⟩

/-! ## Spawning -/

lemma endGame_highscore_int (s : State) (h : ℤ) (hs : s.highscore = JsInt.int h) :
    (endGame s).highscore = JsInt.int (max h (s.score : ℤ)) := by
  simp only [endGame, setGameState_highscore, hs, scoreExceeds]
  by_cases hlt : h < (s.score : ℤ)
  · simp [hlt, setItem, max_eq_right hlt.le]
  · simp [hlt, max_eq_left (not_lt.mp hlt), hs]

lemma step_highscore_mono (c : Canvas) (e : Event) (s : State) (h : ℤ)
    (hs : s.highscore = JsInt.int h) :
    ∃ h2 : ℤ, (step c e s).highscore = JsInt.int h2 ∧ h ≤ h2 := by
  cases e with
  | tick r1 r2 =>
    by_cases hp : s.gameState = GameState.playing
    · simp only [step, gameLoop_of_playing c r1 r2 s hp]
      have key : ∀ (n : ℕ) (t : State) (k : ℤ), t.highscore = JsInt.int k →
          ∃ k2 : ℤ, (obstacleLoop n t).1.highscore = JsInt.int k2 ∧ k ≤ k2 := by
        intro n
        induction n with
        | zero => intro t k hk; exact ⟨k, hk, le_refl k⟩
        | succ i ih =>
          intro t k hk
          unfold obstacleLoop
          split
          · exact ⟨k, hk, le_refl k⟩
          · dsimp only
            split_ifs
            all_goals first
              | exact ⟨_, endGame_highscore_int _ k hk, le_max_left _ _⟩
              | exact ih _ k hk
      obtain ⟨k2, hk2, hle⟩ := key (afterSpawn c r1 r2 s).obstacles.length
        (afterSpawn c r1 r2 s) h (by simp [hs])
      split
      · next s3 heq => rw [heq] at hk2; exact ⟨k2, hk2, hle⟩
      · next s3 heq =>
        rw [heq] at hk2
        exact ⟨k2, by simpa [requestAnimationFrame] using hk2, hle⟩
    · simp only [step, gameLoop_of_not_playing c r1 r2 s hp]
      exact ⟨h, hs, le_refl h⟩
  | pauseToggle =>
    refine ⟨h, ?_, le_refl h⟩
    simp only [step, togglePause]
    split_ifs <;> simpa using hs
  | thrustStart =>
    refine ⟨h, ?_, le_refl h⟩
    simp only [step, onThrustStart]
    split_ifs <;> simpa using hs
  | thrustEnd =>
    refine ⟨h, ?_, le_refl h⟩
    simp only [step, onThrustEnd]
    split_ifs <;> simpa using hs
  | startOrReplay =>
    exact ⟨h, by simpa [step, startGame] using hs, le_refl h⟩

/-- Claim C6. With prior best score `best` and current score `s.score`,
`endGame()` leaves the best score equal to `max best score`; it calls
`localStorage.setItem` (once, with the new best score) if `score > best` and
does not touch the storage otherwise. Consequently the best score never
decreases over any sequence of events (ticks, pauses, thrust, restarts). -/
theorem endGame_best_score (s : State) (best : ℤ) :
    (endGame { s with highscore := JsInt.int best }).highscore =
        JsInt.int (max best (s.score : ℤ)) ∧
    (best < (s.score : ℤ) →
      (endGame { s with highscore := JsInt.int best }).setItemLog =
          s.setItemLog ++ [Nat.repr s.score] ∧
      (endGame { s with highscore := JsInt.int best }).localStorage =
          some (Nat.repr s.score)) ∧
    (¬ best < (s.score : ℤ) →
      (endGame { s with highscore := JsInt.int best }).setItemLog = s.setItemLog ∧
      (endGame { s with highscore := JsInt.int best }).localStorage = s.localStorage) ∧
    (∀ (c : Canvas) (es : List Event),
      ∃ later : ℤ, (run c es { s with highscore := JsInt.int best }).highscore =
        JsInt.int later ∧ best ≤ later) := by
  refine ⟨endGame_highscore_int _ best rfl, ?_, ?_, ?_⟩
  · intro hlt
    simp [endGame, scoreExceeds, hlt, setItem]
  · intro hlt
    simp [endGame, scoreExceeds, hlt]
  · intro c es
    have key : ∀ (es : List Event) (t : State) (k : ℤ), t.highscore = JsInt.int k →
        ∃ later : ℤ, (run c es t).highscore = JsInt.int later ∧ k ≤ later := by
      intro es
      induction es with
      | nil => intro t k hk; exact ⟨k, hk, le_refl k⟩
      | cons e es ih =>
        intro t k hk
        obtain ⟨k2, hk2, hle⟩ := step_highscore_mono c e t k hk
        obtain ⟨k3, hk3, hle3⟩ := ih (step c e t) k2 hk2
        exact ⟨k3, hk3, le_trans hle hle3⟩
    exact key es _ best rfl

/-- The two examples of the specification: best 5 and score 5 leave the log
of writes empty and the best score at 5; best 5 and score 6 write `"6"` and
make the best score 6. -/
theorem endGame_best_score_witness :
    (¬ (5 : ℤ) < ((5 : ℕ) : ℤ) ∧ (5 : ℤ) < ((6 : ℕ) : ℤ)) ∧
    ((endGame { initialState ⟨800, 600⟩ none with score := 5, highscore := JsInt.int 5 }).highscore
        = JsInt.int 5 ∧
     (endGame { initialState ⟨800, 600⟩ none with score := 5, highscore := JsInt.int 5 }).setItemLog
        = [] ∧
     (endGame { initialState ⟨800, 600⟩ none with score := 5, highscore := JsInt.int 5 }).localStorage
        = none) ∧
    ((endGame { initialState ⟨800, 600⟩ none with score := 6, highscore := JsInt.int 5 }).highscore
        = JsInt.int 6 ∧
     (endGame { initialState ⟨800, 600⟩ none with score := 6, highscore := JsInt.int 5 }).setItemLog
        = ["6"] ∧
     (endGame { initialState ⟨800, 600⟩ none with score := 6, highscore := JsInt.int 5 }).localStorage
        = some "6") :=
  ⟨by decide,
   ⟨(endGame_best_score { initialState ⟨800, 600⟩ none with score := 5 } 5).1,
    ((endGame_best_score { initialState ⟨800, 600⟩ none with score := 5 } 5).2.2.1
      (by decide)).1,
    ((endGame_best_score { initialState ⟨800, 600⟩ none with score := 5 } 5).2.2.1
      (by decide)).2⟩,
   ⟨(endGame_best_score { initialState ⟨800, 600⟩ none with score := 6 } 5).1,
    ((endGame_best_score { initialState ⟨800, 600⟩ none with score := 6 } 5).2.1
      (by decide)).1,
    ((endGame_best_score { initialState ⟨800, 600⟩ none with score := 6 } 5).2.1
      (by decide)).2⟩⟩

/-- Claim C7 (the code departs from the claim). A stored value that is not a
number, such as `"abc"`, makes the loaded best score `NaN` instead of `0`;
`"-5"` loads as `−5` and `"12abc"` as `12`. Only a missing value gives `0`.
With a `NaN` best score no score ever exceeds it, so `endGame()` never
replaces it. -/
theorem onLoad_malformed_highscore :
    (onLoad ⟨800, 600⟩ (initialState ⟨300, 150⟩ (some "abc"))).highscore = JsInt.nan ∧
    (onLoad ⟨800, 600⟩ (initialState ⟨300, 150⟩ (some "abc"))).highscore ≠ JsInt.int 0 ∧
    (onLoad ⟨800, 600⟩ (initialState ⟨300, 150⟩ (some "-5"))).highscore = JsInt.int (-5) ∧
    (onLoad ⟨800, 600⟩ (initialState ⟨300, 150⟩ (some "12abc"))).highscore = JsInt.int 12 ∧
    (onLoad ⟨800, 600⟩ (initialState ⟨300, 150⟩ none)).highscore = JsInt.int 0 ∧
    (∀ s : State, (endGame { s with highscore := JsInt.nan }).highscore = JsInt.nan) := by
  refine ⟨by decide, by decide, by decide, by decide, by decide, ?_⟩
  intro s
  simp [endGame, scoreExceeds]

/-! ## State machine -/

/-- Claim C8. From any state, in particular from `home` and from `gameOver`,
and whatever the prior score, frame counter, obstacle list and craft state,
`startGame()` yields game state `playing` with `score = 0`, `frameCount = 0`,
no obstacles, craft `y` at half the canvas height, craft velocity `0` and the
thrust flag cleared; the best score (and the storage) is unchanged. -/
theorem startGame_resets (c : Canvas) (s : State) :
    (startGame c s).gameState = GameState.playing ∧
    (startGame c s).score = 0 ∧
    (startGame c s).frameCount = 0 ∧
    (startGame c s).obstacles = [] ∧
    (startGame c s).ship.y = (c.height : ℚ) / 2 ∧
    (startGame c s).ship.verticalVelocity = 0 ∧
    (startGame c s).ship.isThrusting = false ∧
    (startGame c s).highscore = s.highscore ∧
    (startGame c s).localStorage = s.localStorage ∧
    (startGame c s).setItemLog = s.setItemLog := by
  simp [startGame, Spaceship.reset]

lemma run_frozen (c : Canvas) (es : List Event) (p : State)
    (hp : p.gameState ≠ GameState.playing) (hes : ∀ e ∈ es, Event.isTickOrThrust e = true) :
    run c es p = p := by
  induction es with
  | nil => rfl
  | cons e es ih =>
    have he : step c e p = p := by
      have h1 := hes e (List.mem_cons_self e es)
      cases e with
      | tick r1 r2 => exact gameLoop_of_not_playing c r1 r2 p hp
      | thrustStart => simp [step, onThrustStart, hp]
      | thrustEnd => simp [step, onThrustEnd, hp]
      | pauseToggle => simp [Event.isTickOrThrust] at h1
      | startOrReplay => simp [Event.isTickOrThrust] at h1
    simp only [run, he]
    exact ih (fun e h => hes e (List.mem_cons_of_mem _ h))

/-- Claim C9. From any playing state `togglePause()` gives `paused`; while
paused, any sequence of `gameLoop` invocations and thrust-start / thrust-end
events leaves the whole state unchanged; a second `togglePause()` then gives
`playing` with score, frame counter, best score, obstacle list and craft equal
to their values before the first `togglePause()`. In `home` and `gameOver`
`togglePause()` changes nothing. -/
theorem pause_freezes_simulation (c : Canvas) (s : State)
    (hs : s.gameState = GameState.playing) (es : List Event)
    (hes : ∀ e ∈ es, Event.isTickOrThrust e = true) :
    (togglePause s).gameState = GameState.paused ∧
    run c es (togglePause s) = togglePause s ∧
    (togglePause (run c es (togglePause s))).gameState = GameState.playing ∧
    (togglePause (run c es (togglePause s))).score = s.score ∧
    (togglePause (run c es (togglePause s))).frameCount = s.frameCount ∧
    (togglePause (run c es (togglePause s))).highscore = s.highscore ∧
    (togglePause (run c es (togglePause s))).obstacles = s.obstacles ∧
    (togglePause (run c es (togglePause s))).ship = s.ship ∧
    (∀ t : State, t.gameState = GameState.home ∨ t.gameState = GameState.gameOver →
      togglePause t = t) := by
  have hpaused : (togglePause s).gameState = GameState.paused := by
    simp [togglePause, hs]
  have hfrozen : run c es (togglePause s) = togglePause s :=
    run_frozen c es _ (by simp [hpaused]) hes
  have hq : togglePause (togglePause s) =
      setGameState GameState.playing (setGameState GameState.paused s) := by
    have h1 : togglePause s = setGameState GameState.paused s := by simp [togglePause, hs]
    rw [h1]
    simp [togglePause]
  refine ⟨hpaused, hfrozen, ?_, ?_, ?_, ?_, ?_, ?_, ?_⟩
  · rw [hfrozen, hq]; simp
  · rw [hfrozen, hq]; simp
  · rw [hfrozen, hq]; simp
  · rw [hfrozen, hq]; simp
  · rw [hfrozen, hq]; simp
  · rw [hfrozen, hq]; simp
  · intro t ht
    rcases ht with ht | ht <;> simp [togglePause, ht]

/-- Pausing right after the start, delivering a frame, a thrust press and a
thrust release, and resuming. -/
theorem pause_freezes_simulation_witness :
    (sampleStart.gameState = GameState.playing ∧
      ∀ e ∈ [Event.tick zeroDraw halfDraw, Event.thrustStart, Event.thrustEnd],
        Event.isTickOrThrust e = true) ∧
    ((togglePause sampleStart).gameState = GameState.paused ∧
     run sampleCanvas [Event.tick zeroDraw halfDraw, Event.thrustStart, Event.thrustEnd]
        (togglePause sampleStart) = togglePause sampleStart ∧
     (togglePause (run sampleCanvas
        [Event.tick zeroDraw halfDraw, Event.thrustStart, Event.thrustEnd]
        (togglePause sampleStart))).gameState = GameState.playing ∧
     (togglePause (run sampleCanvas
        [Event.tick zeroDraw halfDraw, Event.thrustStart, Event.thrustEnd]
        (togglePause sampleStart))).score = sampleStart.score ∧
     (togglePause (run sampleCanvas
        [Event.tick zeroDraw halfDraw, Event.thrustStart, Event.thrustEnd]
        (togglePause sampleStart))).frameCount = sampleStart.frameCount ∧
     (togglePause (run sampleCanvas
        [Event.tick zeroDraw halfDraw, Event.thrustStart, Event.thrustEnd]
        (togglePause sampleStart))).highscore = sampleStart.highscore ∧
     (togglePause (run sampleCanvas
        [Event.tick zeroDraw halfDraw, Event.thrustStart, Event.thrustEnd]
        (togglePause sampleStart))).obstacles = sampleStart.obstacles ∧
     (togglePause (run sampleCanvas
        [Event.tick zeroDraw halfDraw, Event.thrustStart, Event.thrustEnd]
        (togglePause sampleStart))).ship = sampleStart.ship ∧
     (∀ t : State, t.gameState = GameState.home ∨ t.gameState = GameState.gameOver →
        togglePause t = t)) :=
  ⟨⟨by simp [sampleStart, startGame], by simp [Event.isTickOrThrust]⟩,
   pause_freezes_simulation sampleCanvas sampleStart (by simp [sampleStart, startGame])
     [Event.tick zeroDraw halfDraw, Event.thrustStart, Event.thrustEnd]
     (by simp [Event.isTickOrThrust])⟩

/-! ## The obstacle loop -/

lemma getElem_length_append (l : List Obstacle) (a : Obstacle) (post : List Obstacle) :
    (l ++ a :: post)[l.length]? = some a := by
  rw [List.getElem?_append_right (le_refl _)]
  simp

lemma set_length_append (l : List Obstacle) (a b : Obstacle) (post : List Obstacle) :
    (l ++ a :: post).set l.length b = l ++ b :: post := by
  induction l with
  | nil => rfl
  | cons d l ih => simp [ih]

lemma eraseIdx_length_append (l : List Obstacle) (a : Obstacle) (post : List Obstacle) :
    (l ++ a :: post).eraseIdx l.length = l ++ post := by
  induction l with
  | nil => rfl
  | cons d l ih => simpa using ih

lemma scoreGainFrom_append (shipX : ℚ) (l : List Obstacle) (a : Obstacle) (i : ℕ) :
    scoreGainFrom shipX i (l ++ [a]) =
      scoreGainFrom shipX i l +
        (if passesNow shipX a && decide ((i + l.length) % 2 = 0) then 1 else 0) := by
  induction l generalizing i with
  | nil => simp [scoreGainFrom]
  | cons b l ih =>
    have hidx : i + 1 + l.length = i + (l.length + 1) := by omega
    rw [List.cons_append, scoreGainFrom, scoreGainFrom, ih, List.length_cons, hidx]
    ring

lemma retained_append (l₁ l₂ : List Obstacle) :
    retained (l₁ ++ l₂) = retained l₁ ++ retained l₂ := by
  simp [retained]

/-- One iteration of the loop body at index `l.length`, when the obstacle
there does not collide. -/
lemma obstacleLoop_succ_noCollision (l : List Obstacle) (a : Obstacle) (post : List Obstacle)
    (s : State) (hs : s.obstacles = l ++ a :: post)
    (hc : checkCollision s.ship (processed s.ship.x a) = false) :
    obstacleLoop (l.length + 1) s =
      obstacleLoop l.length
        { s with obstacles := l ++ (retained [processed s.ship.x a] ++ post),
                 score := s.score +
                   (if passesNow s.ship.x a && decide (l.length % 2 = 0) then 1 else 0) } := by
  rw [obstacleLoop]
  simp only [hs, getElem_length_append, set_length_append, eraseIdx_length_append]
  have hproc : (if (decide (a.update.x + a.update.width < s.ship.x) && !a.update.isPassed) = true
      then { a.update with isPassed := true } else a.update) = processed s.ship.x a := rfl
  simp only [hproc] at *
  rw [if_neg (by simp [hc])]
  congr 1
  have hscore : (if (decide (a.update.x + a.update.width < s.ship.x) && !a.update.isPassed &&
      decide (l.length % 2 = 0)) = true then s.score + 1 else s.score) =
      s.score + (if (passesNow s.ship.x a && decide (l.length % 2 = 0)) = true then 1 else 0) := by
    unfold passesNow
    split_ifs <;> rfl
  rw [hscore]
  by_cases hoff : (processed s.ship.x a).x + (processed s.ship.x a).width < 0
  · have hret : retained [processed s.ship.x a] = [] := by simp [retained, hoff]
    rw [if_pos hoff, hret]
    rfl
  · have hret : retained [processed s.ship.x a] = [processed s.ship.x a] := by
      simp [retained, hoff]
    rw [if_neg hoff, hret]
    rfl

/-- The loop body at index `l.length`, when the obstacle there collides. -/
lemma obstacleLoop_succ_collision (l : List Obstacle) (a : Obstacle) (post : List Obstacle)
    (s : State) (hs : s.obstacles = l ++ a :: post)
    (hc : checkCollision s.ship (processed s.ship.x a) = true) :
    obstacleLoop (l.length + 1) s =
      (endGame { s with obstacles := l ++ processed s.ship.x a :: post,
                        score := s.score +
                          (if passesNow s.ship.x a && decide (l.length % 2 = 0) then 1 else 0) },
       true) := by
  rw [obstacleLoop]
  simp only [hs, getElem_length_append, set_length_append]
  have hproc : (if (decide (a.update.x + a.update.width < s.ship.x) && !a.update.isPassed) = true
      then { a.update with isPassed := true } else a.update) = processed s.ship.x a := rfl
  simp only [hproc] at *
  rw [if_pos hc]
  have hscore : (if (decide (a.update.x + a.update.width < s.ship.x) && !a.update.isPassed &&
      decide (l.length % 2 = 0)) = true then s.score + 1 else s.score) =
      s.score + (if (passesNow s.ship.x a && decide (l.length % 2 = 0)) = true then 1 else 0) := by
    unfold passesNow
    split_ifs <;> rfl
  rw [hscore]

/-- The whole loop over the first `pre.length` obstacles when none of them
collides: every obstacle is processed, the off-screen ones are dropped, and
the score grows by the number of passing obstacles at even indices. -/
lemma obstacleLoop_noCollision (pre : List Obstacle) :
    ∀ (post : List Obstacle) (s : State), s.obstacles = pre ++ post →
      (∀ o ∈ pre, checkCollision s.ship (processed s.ship.x o) = false) →
      obstacleLoop pre.length s =
        ({ s with obstacles := retained (pre.map (processed s.ship.x)) ++ post,
                  score := s.score + scoreGainFrom s.ship.x 0 pre }, false) := by
  induction pre using List.reverseRecOn with
  | nil =>
    intro post s hs _
    simp only [List.length_nil, obstacleLoop, List.map_nil, retained, List.filter_nil,
      List.nil_append, scoreGainFrom, add_zero]
    rw [← List.nil_append post, ← hs]
  | append_singleton l a ih =>
    intro post s hs hc
    have hs2 : s.obstacles = l ++ a :: post := by simpa using hs
    have hca : checkCollision s.ship (processed s.ship.x a) = false :=
      hc a (by simp)
    rw [List.length_append, List.length_singleton,
      obstacleLoop_succ_noCollision l a post s hs2 hca]
    rw [ih (retained [processed s.ship.x a] ++ post)
      { s with obstacles := l ++ (retained [processed s.ship.x a] ++ post),
               score := s.score +
                 (if passesNow s.ship.x a && decide (l.length % 2 = 0) then 1 else 0) }
      rfl (fun o ho => hc o (by simp [ho]))]
    simp only [List.map_append, List.map_cons, List.map_nil, retained_append,
      scoreGainFrom_append, zero_add, List.append_assoc, add_assoc]
    rw [add_comm (scoreGainFrom s.ship.x 0 l)]

/-- The loop over the first `pre.length` obstacles when one of them collides:
the loop is left through `endGame()`. -/
lemma obstacleLoop_collision (pre : List Obstacle) :
    ∀ (post : List Obstacle) (s : State), s.obstacles = pre ++ post →
      (∃ o ∈ pre, checkCollision s.ship (processed s.ship.x o) = true) →
      (obstacleLoop pre.length s).2 = true ∧
      (obstacleLoop pre.length s).1.gameState = GameState.gameOver := by
  induction pre using List.reverseRecOn with
  | nil =>
    intro post s _ hc
    obtain ⟨o, ho, _⟩ := hc
    simp at ho
  | append_singleton l a ih =>
    intro post s hs hc
    have hs2 : s.obstacles = l ++ a :: post := by simpa using hs
    rw [List.length_append, List.length_singleton]
    by_cases hca : checkCollision s.ship (processed s.ship.x a) = true
    · rw [obstacleLoop_succ_collision l a post s hs2 hca]
      simp
    · have hca2 : checkCollision s.ship (processed s.ship.x a) = false := by simpa using hca
      rw [obstacleLoop_succ_noCollision l a post s hs2 hca2]
      apply ih (retained [processed s.ship.x a] ++ post)
        { s with obstacles := l ++ (retained [processed s.ship.x a] ++ post),
                 score := s.score +
                   (if passesNow s.ship.x a && decide (l.length % 2 = 0) then 1 else 0) }
        rfl
      obtain ⟨o, ho, hco⟩ := hc
      rcases List.mem_append.mp ho with h | h
      · exact ⟨o, h, hco⟩
      · simp at h
        subst h
        exact absurd hco hca

/-- Whether or not the loop is cut short by a collision, the score it leaves
lies between the old score and the old score plus the number of passing
obstacles at even indices. -/
lemma obstacleLoop_score_bounds (pre : List Obstacle) :
    ∀ (post : List Obstacle) (s : State), s.obstacles = pre ++ post →
      s.score ≤ (obstacleLoop pre.length s).1.score ∧
      (obstacleLoop pre.length s).1.score ≤ s.score + scoreGainFrom s.ship.x 0 pre := by
  induction pre using List.reverseRecOn with
  | nil =>
    intro post s _
    simp [obstacleLoop, scoreGainFrom]
  | append_singleton l a ih =>
    intro post s hs
    have hs2 : s.obstacles = l ++ a :: post := by simpa using hs
    rw [List.length_append, List.length_singleton, scoreGainFrom_append, zero_add]
    by_cases hca : checkCollision s.ship (processed s.ship.x a) = true
    · rw [obstacleLoop_succ_collision l a post s hs2 hca]
      simp only [endGame_score]
      constructor <;> omega
    · have hca2 : checkCollision s.ship (processed s.ship.x a) = false := by simpa using hca
      rw [obstacleLoop_succ_noCollision l a post s hs2 hca2]
      have h := ih (retained [processed s.ship.x a] ++ post)
        { s with obstacles := l ++ (retained [processed s.ship.x a] ++ post),
                 score := s.score +
                   (if passesNow s.ship.x a && decide (l.length % 2 = 0) then 1 else 0) }
        rfl
      simp only at h
      constructor <;> omega

/-- The score after any tick from a playing state, with or without collision. -/
lemma gameLoop_score_bounds (c : Canvas) (r1 r2 : UnitDraw) (s : State)
    (hp : s.gameState = GameState.playing) :
    s.score ≤ (gameLoop c r1 r2 s).score ∧
    (gameLoop c r1 r2 s).score ≤ s.score + scoreGainFrom s.ship.x 0 (liveInTick c r1 r2 s) := by
  have hlive : (afterSpawn c r1 r2 s).obstacles = liveInTick c r1 r2 s := by
    rw [afterSpawn_obstacles, liveInTick]
    split_ifs <;> simp
  have h := obstacleLoop_score_bounds (liveInTick c r1 r2 s) [] (afterSpawn c r1 r2 s)
    (by simp [hlive])
  simp only [afterSpawn_score, afterSpawn_ship, update_x] at h
  rw [gameLoop_of_playing c r1 r2 s hp, hlive]
  split
  · next s3 heq => rw [heq] at h; exact h
  · next s3 heq => rw [heq] at h; simpa [requestAnimationFrame] using h

/-- A tick from a playing state in which no live obstacle collides. -/
lemma gameLoop_noCollision (c : Canvas) (r1 r2 : UnitDraw) (s : State)
    (hp : s.gameState = GameState.playing)
    (hc : ∀ o ∈ liveInTick c r1 r2 s,
      checkCollision (s.ship.update c) (processed s.ship.x o) = false) :
    gameLoop c r1 r2 s =
      requestAnimationFrame
        { afterSpawn c r1 r2 s with
          obstacles := retained ((liveInTick c r1 r2 s).map (processed s.ship.x)),
          score := s.score + scoreGainFrom s.ship.x 0 (liveInTick c r1 r2 s),
          frameCount := s.frameCount + 1 } := by
  have hlive : (afterSpawn c r1 r2 s).obstacles = liveInTick c r1 r2 s := by
    rw [afterSpawn_obstacles, liveInTick]
    split_ifs <;> simp
  have hx : (afterSpawn c r1 r2 s).ship.x = s.ship.x := by simp [update_x]
  have hfc : (afterSpawn c r1 r2 s).frameCount = s.frameCount := by
    unfold afterSpawn generateNewObstaclePair
    split_ifs <;> rfl
  rw [gameLoop_of_playing c r1 r2 s hp, hlive]
  rw [obstacleLoop_noCollision (liveInTick c r1 r2 s) [] (afterSpawn c r1 r2 s)
    (by simp [hlive]) (by simpa [update_x] using hc)]
  simp only [hx, List.append_nil, afterSpawn_score, hfc]

/-- A tick from a playing state in which some live obstacle collides ends the
run. -/
lemma gameLoop_collision (c : Canvas) (r1 r2 : UnitDraw) (s : State)
    (hp : s.gameState = GameState.playing)
    (hc : ∃ o ∈ liveInTick c r1 r2 s,
      checkCollision (s.ship.update c) (processed s.ship.x o) = true) :
    (gameLoop c r1 r2 s).gameState = GameState.gameOver := by
  have hlive : (afterSpawn c r1 r2 s).obstacles = liveInTick c r1 r2 s := by
    rw [afterSpawn_obstacles, liveInTick]
    split_ifs <;> simp
  have hx : (afterSpawn c r1 r2 s).ship.x = s.ship.x := by simp [update_x]
  have h := obstacleLoop_collision (liveInTick c r1 r2 s) [] (afterSpawn c r1 r2 s)
    (by simp [hlive]) (by simpa [update_x] using hc)
  rw [gameLoop_of_playing c r1 r2 s hp, hlive]
  split
  · next s3 heq => rw [heq] at h; exact h.2
  · next s3 heq => rw [heq] at h; simp at h

/-- A tick from a playing state that leaves the game playing met no
collision. -/
lemma noCollision_of_still_playing (c : Canvas) (r1 r2 : UnitDraw) (s : State)
    (hp : s.gameState = GameState.playing)
    (hn : (gameLoop c r1 r2 s).gameState = GameState.playing) :
    ∀ o ∈ liveInTick c r1 r2 s,
      checkCollision (s.ship.update c) (processed s.ship.x o) = false := by
  intro o ho
  by_contra hcol
  have hcol2 : checkCollision (s.ship.update c) (processed s.ship.x o) = true := by
    simpa using hcol
  have := gameLoop_collision c r1 r2 s hp ⟨o, ho, hcol2⟩
  rw [this] at hn
  exact absurd hn (by decide)

/-! ## Retirement of off-screen obstacles -/

lemma processed_box (shipX : ℚ) (o : Obstacle) :
    (processed shipX o).box = o.update.box := by
  unfold processed
  split_ifs <;> rfl

lemma processed_offscreen (shipX : ℚ) (o : Obstacle) :
    ((processed shipX o).x + (processed shipX o).width < 0) ↔
      (o.update.x + o.update.width < 0) := by
  unfold processed
  split_ifs <;> exact Iff.rfl

lemma retained_processed_box (shipX : ℚ) (l : List Obstacle) :
    (retained (l.map (processed shipX))).map Obstacle.box =
      ((l.map Obstacle.update).filter (fun o => !decide (o.x + o.width < 0))).map
        Obstacle.box := by
  induction l with
  | nil => rfl
  | cons a l ih =>
    simp only [retained, List.map_cons, List.filter_cons] at ih ⊢
    by_cases h : a.update.x + a.update.width < 0
    · have h2 := (processed_offscreen shipX a).mpr h
      simp only [h, h2, decide_True, Bool.not_true, Bool.false_eq_true, if_false]
      exact ih
    · have h2 : ¬ ((processed shipX a).x + (processed shipX a).width < 0) :=
        fun hh => h ((processed_offscreen shipX a).mp hh)
      simp only [h, h2, decide_False, Bool.not_false, if_true, List.map_cons, processed_box]
      rw [ih]

/-- Claim C10. After a `gameLoop` tick from a playing state that completes
without a collision, no obstacle of the live list has `x + width < 0`, and
the live list consists, in the same order, of exactly those obstacles live
in the tick (the ones live before it, then the pair spawned in it) whose
advanced position has `x + width ≥ 0` — with their rectangles as advanced. -/
theorem offscreen_obstacles_retired (c : Canvas) (r1 r2 : UnitDraw) (s : State)
    (hp : s.gameState = GameState.playing)
    (hn : (gameLoop c r1 r2 s).gameState = GameState.playing) :
    (∀ o ∈ (gameLoop c r1 r2 s).obstacles, ¬ (o.x + o.width < 0)) ∧
    (gameLoop c r1 r2 s).obstacles.map Obstacle.box =
      (((liveInTick c r1 r2 s).map Obstacle.update).filter
        (fun o => !decide (o.x + o.width < 0))).map Obstacle.box := by
  have hc := noCollision_of_still_playing c r1 r2 s hp hn
  rw [gameLoop_noCollision c r1 r2 s hp hc]
  simp only [requestAnimationFrame]
  refine ⟨?_, retained_processed_box s.ship.x _⟩
  intro o ho
  simp only [retained, List.mem_filter] at ho
  simpa using ho.2

/-- On the 800 × 600 canvas, a tick retires the pair at `x = −39` and keeps
the pair at `x = 201`. -/
theorem offscreen_obstacles_retired_witness :
    (retiringState.gameState = GameState.playing ∧
      (gameLoop sampleCanvas zeroDraw halfDraw retiringState).gameState = GameState.playing) ∧
    ((∀ o ∈ (gameLoop sampleCanvas zeroDraw halfDraw retiringState).obstacles,
        ¬ (o.x + o.width < 0)) ∧
     (gameLoop sampleCanvas zeroDraw halfDraw retiringState).obstacles.map Obstacle.box =
      (((liveInTick sampleCanvas zeroDraw halfDraw retiringState).map Obstacle.update).filter
        (fun o => !decide (o.x + o.width < 0))).map Obstacle.box) :=
  have hp : retiringState.gameState = GameState.playing := by
    simp [retiringState, sampleStart, startGame]
  have hn : (gameLoop sampleCanvas zeroDraw halfDraw retiringState).gameState =
      GameState.playing := by
    norm_num [gameLoop, retiringState, sampleStart, sampleCanvas, startGame, initialState,
      setGameState, requestAnimationFrame, Spaceship.initial, Spaceship.reset, Spaceship.update,
      Spaceship.steppedVelocity, GravityPull, SpaceThrustPower, MaxVerticalVelocity,
      obstacleSpawnInterval, obstacleLoop, Obstacle.update, obstacleSpeed, checkCollision]
  ⟨⟨hp, hn⟩, offscreen_obstacles_retired sampleCanvas zeroDraw halfDraw retiringState hp hn⟩

/-! ## Pairs -/

lemma pairsOf_flattenPairs (ps : List (Obstacle × Obstacle)) :
    pairsOf (flattenPairs ps) = ps := by
  induction ps with
  | nil => rfl
  | cons p ps ih => simp [flattenPairs, pairsOf, ih]

lemma flattenPairs_append (ps qs : List (Obstacle × Obstacle)) :
    flattenPairs (ps ++ qs) = flattenPairs ps ++ flattenPairs qs := by
  induction ps with
  | nil => rfl
  | cons p ps ih => simp [flattenPairs, ih]

lemma map_flattenPairs (f : Obstacle → Obstacle) (ps : List (Obstacle × Obstacle)) :
    (flattenPairs ps).map f = flattenPairs (ps.map (fun p => (f p.1, f p.2))) := by
  induction ps with
  | nil => rfl
  | cons p ps ih => simp [flattenPairs, ih]

lemma retained_flattenPairs (ps : List (Obstacle × Obstacle))
    (h : ∀ p ∈ ps, p.1.x = p.2.x ∧ p.1.width = p.2.width) :
    retained (flattenPairs ps) =
      flattenPairs (ps.filter (fun p => !decide (p.1.x + p.1.width < 0))) := by
  induction ps with
  | nil => rfl
  | cons p ps ih =>
    have hp := h p (List.mem_cons_self p ps)
    have ih2 := ih (fun q hq => h q (List.mem_cons_of_mem _ hq))
    simp only [retained] at ih2
    simp only [flattenPairs, retained, List.filter_cons, ← hp.1, ← hp.2]
    by_cases hoff : p.1.x + p.1.width < 0
    · simp only [hoff, decide_True, Bool.not_true, Bool.false_eq_true, if_false]
      exact ih2
    · simp only [hoff, decide_False, Bool.not_false, if_true, flattenPairs]
      rw [ih2]

lemma scoreGainFrom_flattenPairs (shipX : ℚ) (ps : List (Obstacle × Obstacle)) :
    ∀ i : ℕ, i % 2 = 0 →
      scoreGainFrom shipX i (flattenPairs ps) = ps.countP (fun p => passesNow shipX p.1) := by
  induction ps with
  | nil => intro i _; rfl
  | cons p ps ih =>
    intro i hi
    have hi1 : ¬ (i + 1) % 2 = 0 := by omega
    have hi2 : (i + 1 + 1) % 2 = 0 := by omega
    rw [flattenPairs, scoreGainFrom, scoreGainFrom, ih (i + 1 + 1) hi2, List.countP_cons]
    simp only [hi, hi1, decide_True, decide_False, Bool.and_true, Bool.and_false,
      Bool.false_eq_true, if_false, zero_add]
    rw [add_comm]

/-- Processing a pair whose members agree, and whose flag is only set when the
pair is behind the nose, yields a good pair. -/
lemma goodPair_processed (shipX : ℚ) (p : Obstacle × Obstacle)
    (hx : p.1.x = p.2.x) (hw : p.1.width = p.2.width) (hf : p.1.isPassed = p.2.isPassed)
    (hy : p.1.y = 0) (hflag : p.1.isPassed = true → p.1.x + p.1.width < shipX) :
    GoodPair shipX (processed shipX p.1, processed shipX p.2) := by
  have hspeed : (0 : ℚ) < obstacleSpeed := by norm_num [obstacleSpeed]
  unfold GoodPair processed Obstacle.update
  simp only [← hx, ← hw, ← hf]
  cases hpass : p.1.isPassed with
  | true =>
    have hb := hflag hpass
    have hb2 : p.1.x - obstacleSpeed + p.1.width < shipX := by linarith
    simp [hb2, hy]
  | false =>
    by_cases hb2 : p.1.x - obstacleSpeed + p.1.width < shipX
    · simp [hb2, hy]
    · simp [hb2, hy, hpass]

lemma GoodPair.weaken {shipX : ℚ} {p : Obstacle × Obstacle} (h : GoodPair shipX p) :
    p.1.isPassed = true → p.1.x + p.1.width < shipX := by
  intro hp
  have h5 := h.2.2.2.2
  rw [hp] at h5
  simpa using h5.symm

/-- The freshly built pair has members that agree and unset flags. -/
lemma newObstaclePair_shape (c : Canvas) (r1 r2 : UnitDraw) :
    (newObstaclePair c r1 r2).1.x = (newObstaclePair c r1 r2).2.x ∧
    (newObstaclePair c r1 r2).1.width = (newObstaclePair c r1 r2).2.width ∧
    (newObstaclePair c r1 r2).1.isPassed = (newObstaclePair c r1 r2).2.isPassed ∧
    (newObstaclePair c r1 r2).1.y = 0 ∧
    (newObstaclePair c r1 r2).1.isPassed = false := by
  simp [newObstaclePair, Obstacle.new]

/-- The pairs a tick works on. -/
lemma liveInTick_flattenPairs (c : Canvas) (r1 r2 : UnitDraw) (s : State)
    (ps : List (Obstacle × Obstacle)) (hs : s.obstacles = flattenPairs ps) :
    liveInTick c r1 r2 s =
      flattenPairs (ps ++ (if s.frameCount % obstacleSpawnInterval = 0 then
        [newObstaclePair c r1 r2] else [])) := by
  rw [liveInTick, flattenPairs_append, hs]
  split_ifs <;> rfl

/-- A tick without collision keeps the live list paired. -/
lemma pairedInv_tick (c : Canvas) (r1 r2 : UnitDraw) (s : State)
    (hinv : PairedInv s.ship.x s.obstacles) :
    PairedInv s.ship.x (retained ((liveInTick c r1 r2 s).map (processed s.ship.x))) := by
  obtain ⟨ps, hs, hgood⟩ := hinv
  rw [liveInTick_flattenPairs c r1 r2 s ps hs, map_flattenPairs]
  have hall : ∀ q ∈ (ps ++ (if s.frameCount % obstacleSpawnInterval = 0 then
        [newObstaclePair c r1 r2] else [])).map
        (fun p => (processed s.ship.x p.1, processed s.ship.x p.2)), GoodPair s.ship.x q := by
    intro q hq
    obtain ⟨p, hp, rfl⟩ := List.mem_map.mp hq
    rcases List.mem_append.mp hp with h | h
    · have g := hgood p h
      exact goodPair_processed s.ship.x p g.1 g.2.1 g.2.2.1 g.2.2.2.1 g.weaken
    · split_ifs at h
      · simp only [List.mem_singleton] at h
        subst h
        have sh := newObstaclePair_shape c r1 r2
        exact goodPair_processed s.ship.x _ sh.1 sh.2.1 sh.2.2.1 sh.2.2.2.1
          (fun hh => by rw [sh.2.2.2.2] at hh; exact absurd hh (by decide))
      · simp at h
  rw [retained_flattenPairs _ (fun q hq => ⟨(hall q hq).1, (hall q hq).2.1⟩)]
  exact ⟨_, rfl, fun q hq => hall q (List.mem_of_mem_filter hq)⟩

/-- While a run is playing or paused, its live list is paired. -/
lemma reachable_pairedInv (c : Canvas) (s : State) (hr : Reachable c s) :
    (s.gameState = GameState.playing ∨ s.gameState = GameState.paused) →
      PairedInv s.ship.x s.obstacles := by
  induction hr with
  | start s0 =>
    intro _
    exact ⟨[], by simp [startGame, flattenPairs], by simp⟩
  | step e hr ih =>
    rename_i t
    intro hgs
    cases e with
    | tick r1 r2 =>
      by_cases hp : t.gameState = GameState.playing
      · by_cases hc : ∀ o ∈ liveInTick c r1 r2 t,
            checkCollision (t.ship.update c) (processed t.ship.x o) = false
        · simp only [step, gameLoop_noCollision c r1 r2 t hp hc, requestAnimationFrame,
            afterSpawn_ship, update_x]
          exact pairedInv_tick c r1 r2 t (ih (Or.inl hp))
        · push_neg at hc
          obtain ⟨o, ho, hco⟩ := hc
          have hover := gameLoop_collision c r1 r2 t hp ⟨o, ho, by simpa using hco⟩
          simp only [step, hover] at hgs
          rcases hgs with h | h <;> exact absurd h (by decide)
      · simp only [step, gameLoop_of_not_playing c r1 r2 t hp] at hgs ⊢
        exact ih hgs
    | pauseToggle =>
      have hsame : (togglePause t).ship = t.ship ∧ (togglePause t).obstacles = t.obstacles := by
        simp only [togglePause]
        split_ifs <;> simp
      simp only [step, hsame.1, hsame.2]
      apply ih
      by_cases h1 : t.gameState = GameState.playing
      · exact Or.inl h1
      · by_cases h2 : t.gameState = GameState.paused
        · exact Or.inr h2
        · simp [step, togglePause, h1, h2] at hgs
    | thrustStart =>
      simp only [step, onThrustStart] at hgs ⊢
      split_ifs at hgs ⊢ with h
      · exact ih (Or.inl h)
      · exact ih hgs
    | thrustEnd =>
      simp only [step, onThrustEnd] at hgs ⊢
      split_ifs at hgs ⊢ with h
      · exact ih (Or.inl h)
      · exact ih hgs
    | startOrReplay =>
      exact ⟨[], by simp [step, startGame, flattenPairs], by simp⟩

/-! ## Scoring -/

lemma passesNow_eq_crossing (shipX : ℚ) (p : Obstacle × Obstacle) (g : GoodPair shipX p) :
    passesNow shipX p.1 = (!pairBehind shipX p && pairBehind shipX (advancePair p)) := by
  obtain ⟨hx, hw, _, _, hflag⟩ := g
  simp only [passesNow, pairBehind, advancePair, Obstacle.update, ← hx, ← hw, hflag,
    Bool.and_self]
  rw [Bool.and_comm]

lemma passesNow_newObstaclePair (shipX : ℚ) (c : Canvas) (r1 r2 : UnitDraw) :
    passesNow shipX (newObstaclePair c r1 r2).1 =
      pairBehind shipX (advancePair (newObstaclePair c r1 r2)) := by
  simp [passesNow, pairBehind, advancePair, Obstacle.update, newObstaclePair, Obstacle.new]

/-- The score increments of the obstacle loop, counted in pairs. -/
lemma scoreGain_eq_newlyPassedPairs (c : Canvas) (r1 r2 : UnitDraw) (s : State)
    (ps : List (Obstacle × Obstacle)) (hs : s.obstacles = flattenPairs ps)
    (hgood : ∀ p ∈ ps, GoodPair s.ship.x p) :
    scoreGainFrom s.ship.x 0 (liveInTick c r1 r2 s) = newlyPassedPairs c r1 r2 s := by
  have hpairs : pairsOf s.obstacles = ps := by rw [hs, pairsOf_flattenPairs]
  simp only [newlyPassedPairs, hpairs]
  rw [liveInTick_flattenPairs c r1 r2 s ps hs,
    scoreGainFrom_flattenPairs s.ship.x _ 0 (by norm_num), List.countP_append]
  congr 1
  · apply List.countP_congr
    intro p hp2
    rw [passesNow_eq_crossing s.ship.x p (hgood p hp2)]
  · by_cases hspawn : s.frameCount % obstacleSpawnInterval = 0
    · simp only [hspawn, if_true, true_and, List.countP_cons, List.countP_nil, zero_add,
        passesNow_newObstaclePair]
    · simp [hspawn]

/-- Claim C1. In any run started by `startGame()` and advanced by `gameLoop`
ticks, thrust inputs, pause toggles and restarts (fixed canvas size), the live
list of a playing state consists of pairs whose two members share `x` and
`width`, and every tick that completes without a collision raises the score by
exactly the number of pairs whose right edge `x + width` first becomes
strictly less than `Spaceship.x` in that tick: one per pair, never one per
obstacle, and never again for a pair already behind the nose. A tick that ends
in a collision raises the score by at most that number. -/
theorem score_counts_each_pair_once (c : Canvas) (s : State) (hr : Reachable c s)
    (hp : s.gameState = GameState.playing) (r1 r2 : UnitDraw) :
    ((gameLoop c r1 r2 s).gameState = GameState.playing →
      (gameLoop c r1 r2 s).score = s.score + newlyPassedPairs c r1 r2 s) ∧
    (s.score ≤ (gameLoop c r1 r2 s).score ∧
      (gameLoop c r1 r2 s).score ≤ s.score + newlyPassedPairs c r1 r2 s) ∧
    s.obstacles = flattenPairs (pairsOf s.obstacles) ∧
    (∀ p ∈ pairsOf s.obstacles, p.1.x = p.2.x ∧ p.1.width = p.2.width) := by
  obtain ⟨ps, hs, hgood⟩ := reachable_pairedInv c s hr (Or.inl hp)
  have hpairs : pairsOf s.obstacles = ps := by rw [hs, pairsOf_flattenPairs]
  have hgain := scoreGain_eq_newlyPassedPairs c r1 r2 s ps hs hgood
  refine ⟨?_, ?_, by rw [hpairs]; exact hs, ?_⟩
  · intro hn
    have hc := noCollision_of_still_playing c r1 r2 s hp hn
    rw [gameLoop_noCollision c r1 r2 s hp hc]
    simp only [requestAnimationFrame, hgain]
  · rw [← hgain]
    exact gameLoop_score_bounds c r1 r2 s hp
  · intro p hp2
    rw [hpairs] at hp2
    exact ⟨(hgood p hp2).1, (hgood p hp2).2.1⟩

/-- On a canvas only 50 wide the pair spawned by the first tick is behind the
nose as soon as it has advanced: the tick completes without a collision and
the score goes from 0 to 1, not 2. -/
theorem score_counts_each_pair_once_witness :
    (Reachable narrowCanvas narrowStart ∧ narrowStart.gameState = GameState.playing) ∧
    (((gameLoop narrowCanvas zeroDraw halfDraw narrowStart).gameState = GameState.playing →
        (gameLoop narrowCanvas zeroDraw halfDraw narrowStart).score =
          narrowStart.score + newlyPassedPairs narrowCanvas zeroDraw halfDraw narrowStart) ∧
      (narrowStart.score ≤ (gameLoop narrowCanvas zeroDraw halfDraw narrowStart).score ∧
        (gameLoop narrowCanvas zeroDraw halfDraw narrowStart).score ≤
          narrowStart.score + newlyPassedPairs narrowCanvas zeroDraw halfDraw narrowStart) ∧
      narrowStart.obstacles = flattenPairs (pairsOf narrowStart.obstacles) ∧
      (∀ p ∈ pairsOf narrowStart.obstacles, p.1.x = p.2.x ∧ p.1.width = p.2.width)) ∧
    ((gameLoop narrowCanvas zeroDraw halfDraw narrowStart).gameState = GameState.playing ∧
      narrowStart.score = 0 ∧
      (gameLoop narrowCanvas zeroDraw halfDraw narrowStart).score = 1) :=
  have hp : narrowStart.gameState = GameState.playing := by
    simp [narrowStart, startGame]
  have hn : (gameLoop narrowCanvas zeroDraw halfDraw narrowStart).gameState =
      GameState.playing := by
    norm_num [gameLoop, narrowStart, narrowCanvas, startGame, initialState, setGameState,
      requestAnimationFrame, Spaceship.initial, Spaceship.reset, Spaceship.update,
      Spaceship.steppedVelocity, GravityPull, SpaceThrustPower, MaxVerticalVelocity,
      obstacleSpawnInterval, generateNewObstaclePair, newObstaclePair, Obstacle.new,
      zeroDraw, halfDraw, maxObstacleGap, minObstacleGap, obstacleLoop, Obstacle.update,
      obstacleSpeed, checkCollision]
  have hscore : (gameLoop narrowCanvas zeroDraw halfDraw narrowStart).score = 1 := by
    norm_num [gameLoop, narrowStart, narrowCanvas, startGame, initialState, setGameState,
      requestAnimationFrame, Spaceship.initial, Spaceship.reset, Spaceship.update,
      Spaceship.steppedVelocity, GravityPull, SpaceThrustPower, MaxVerticalVelocity,
      obstacleSpawnInterval, generateNewObstaclePair, newObstaclePair, Obstacle.new,
      zeroDraw, halfDraw, maxObstacleGap, minObstacleGap, obstacleLoop, Obstacle.update,
      obstacleSpeed, checkCollision]
  ⟨⟨Reachable.start _, hp⟩,
   score_counts_each_pair_once narrowCanvas narrowStart (Reachable.start _) hp zeroDraw halfDraw,
   hn, by simp [narrowStart, startGame], hscore⟩

/-! ## Collision detector: containment, separation, symmetry -/

lemma checkCollision_iff_hitBox (ship : Spaceship) (obstacle : Obstacle) :
    checkCollision ship obstacle = true ↔
      (obstacle.hitBox.left < ship.hitBox.right ∧ ship.hitBox.left < obstacle.hitBox.right ∧
       obstacle.hitBox.top < ship.hitBox.bottom ∧ ship.hitBox.top < obstacle.hitBox.bottom) := by
  simp only [checkCollision, Spaceship.hitBox, Obstacle.hitBox, Bool.and_eq_true,
    decide_eq_true_eq, Bool.if_true_left, Bool.or_false, and_assoc, gt_iff_lt]

/-- Claim C11. For every ship with positive width and height and every
obstacle: if the craft box used by `checkCollision` lies entirely inside the
obstacle box, `checkCollision` returns true; if the two boxes are separated on
either axis (craft right ≤ obstacle left, craft left ≥ obstacle right, craft
bottom ≤ obstacle top, or craft top ≥ obstacle bottom), it returns false. -/
theorem checkCollision_inside_and_separated (ship : Spaceship) (obstacle : Obstacle)
    (hw : 0 < ship.width) (hh : 0 < ship.height) :
    ((obstacle.hitBox.left ≤ ship.hitBox.left ∧ ship.hitBox.right ≤ obstacle.hitBox.right ∧
      obstacle.hitBox.top ≤ ship.hitBox.top ∧ ship.hitBox.bottom ≤ obstacle.hitBox.bottom) →
        checkCollision ship obstacle = true) ∧
    ((ship.hitBox.right ≤ obstacle.hitBox.left ∨ obstacle.hitBox.right ≤ ship.hitBox.left ∨
      ship.hitBox.bottom ≤ obstacle.hitBox.top ∨ obstacle.hitBox.bottom ≤ ship.hitBox.top) →
        checkCollision ship obstacle = false) := by
  constructor
  · intro h
    rw [checkCollision_iff_hitBox]
    simp only [Spaceship.hitBox, Obstacle.hitBox] at h ⊢
    obtain ⟨h1, h2, h3, h4⟩ := h
    refine ⟨?_, ?_, ?_, ?_⟩ <;> linarith
  · intro h
    rw [← Bool.not_eq_true, checkCollision_iff_hitBox]
    simp only [Spaceship.hitBox, Obstacle.hitBox] at h ⊢
    rintro ⟨h1, h2, h3, h4⟩
    rcases h with h | h | h | h <;> linarith

/-- The craft of the game inside a wall-to-wall obstacle collides with it, and
does not collide with an obstacle that is entirely behind its tail. -/
theorem checkCollision_inside_and_separated_witness :
    ((0 : ℚ) < sampleShip.width ∧ (0 : ℚ) < sampleShip.height) ∧
    (((engulfingObstacle.hitBox.left ≤ sampleShip.hitBox.left ∧
        sampleShip.hitBox.right ≤ engulfingObstacle.hitBox.right ∧
        engulfingObstacle.hitBox.top ≤ sampleShip.hitBox.top ∧
        sampleShip.hitBox.bottom ≤ engulfingObstacle.hitBox.bottom) →
          checkCollision sampleShip engulfingObstacle = true) ∧
      ((sampleShip.hitBox.right ≤ engulfingObstacle.hitBox.left ∨
        engulfingObstacle.hitBox.right ≤ sampleShip.hitBox.left ∨
        sampleShip.hitBox.bottom ≤ engulfingObstacle.hitBox.top ∨
        engulfingObstacle.hitBox.bottom ≤ sampleShip.hitBox.top) →
          checkCollision sampleShip engulfingObstacle = false)) ∧
    (engulfingObstacle.hitBox.left ≤ sampleShip.hitBox.left ∧
      sampleShip.hitBox.right ≤ engulfingObstacle.hitBox.right ∧
      engulfingObstacle.hitBox.top ≤ sampleShip.hitBox.top ∧
      sampleShip.hitBox.bottom ≤ engulfingObstacle.hitBox.bottom) ∧
    checkCollision sampleShip engulfingObstacle = true ∧
    clearedObstacle.hitBox.right ≤ sampleShip.hitBox.left ∧
    checkCollision sampleShip clearedObstacle = false :=
  have hpos : (0 : ℚ) < sampleShip.width ∧ (0 : ℚ) < sampleShip.height := by
    norm_num [sampleShip]
  have hin : engulfingObstacle.hitBox.left ≤ sampleShip.hitBox.left ∧
      sampleShip.hitBox.right ≤ engulfingObstacle.hitBox.right ∧
      engulfingObstacle.hitBox.top ≤ sampleShip.hitBox.top ∧
      sampleShip.hitBox.bottom ≤ engulfingObstacle.hitBox.bottom := by
    norm_num [sampleShip, engulfingObstacle, Spaceship.hitBox, Obstacle.hitBox]
  have hsep : clearedObstacle.hitBox.right ≤ sampleShip.hitBox.left := by
    norm_num [sampleShip, clearedObstacle, Spaceship.hitBox, Obstacle.hitBox]
  ⟨hpos, checkCollision_inside_and_separated sampleShip engulfingObstacle hpos.1 hpos.2,
   hin, (checkCollision_inside_and_separated sampleShip engulfingObstacle hpos.1 hpos.2).1 hin,
   hsep,
   (checkCollision_inside_and_separated sampleShip clearedObstacle hpos.1 hpos.2).2
     (Or.inr (Or.inl hsep))⟩

/-- Claim C12. `checkCollision` is symmetric in the two boxes: if `ship2` is a
ship whose collision box equals the rectangle of `obstacle`, and `obstacle2`
an obstacle whose rectangle equals the collision box of `ship`, then
`checkCollision(ship2, obstacle2) = checkCollision(ship, obstacle)`. -/
theorem checkCollision_symmetric (ship ship2 : Spaceship) (obstacle obstacle2 : Obstacle)
    (hship : ship2.hitBox = obstacle.hitBox) (hobs : obstacle2.hitBox = ship.hitBox) :
    checkCollision ship2 obstacle2 = checkCollision ship obstacle := by
  rw [Bool.eq_iff_iff, checkCollision_iff_hitBox, checkCollision_iff_hitBox, hship, hobs]
  constructor
  · rintro ⟨h1, h2, h3, h4⟩
    exact ⟨h2, h1, h4, h3⟩
  · rintro ⟨h1, h2, h3, h4⟩
    exact ⟨h2, h1, h4, h3⟩

/-- Swapping the boxes of the craft of the game and of an obstacle behind its
tail. -/
theorem checkCollision_symmetric_witness :
    (swappedShip.hitBox = clearedObstacle.hitBox ∧ swappedObstacle.hitBox = sampleShip.hitBox) ∧
    checkCollision swappedShip swappedObstacle = checkCollision sampleShip clearedObstacle :=
  have h1 : swappedShip.hitBox = clearedObstacle.hitBox := by
    norm_num [swappedShip, clearedObstacle, Spaceship.hitBox, Obstacle.hitBox]
  have h2 : swappedObstacle.hitBox = sampleShip.hitBox := by
    norm_num [swappedObstacle, sampleShip, Spaceship.hitBox, Obstacle.hitBox]
  ⟨⟨h1, h2⟩, checkCollision_symmetric sampleShip swappedShip clearedObstacle swappedObstacle h1 h2⟩

/-! ## Spawned heights -/

lemma endGame_frames (s : State) :
    (endGame s).pendingFrames = s.pendingFrames ∧
    (endGame s).animationFrameId = s.animationFrameId ∧
    (endGame s).nextFrameId = s.nextFrameId := by
  simp only [endGame, setGameState, setItem]
  split_ifs <;> exact ⟨rfl, rfl, rfl⟩

lemma obstacleLoop_frames (n : ℕ) (s : State) :
    (obstacleLoop n s).1.pendingFrames = s.pendingFrames ∧
    (obstacleLoop n s).1.animationFrameId = s.animationFrameId ∧
    (obstacleLoop n s).1.nextFrameId = s.nextFrameId := by
  induction n generalizing s with
  | zero => exact ⟨rfl, rfl, rfl⟩
  | succ i ih =>
    unfold obstacleLoop
    split
    · exact ⟨rfl, rfl, rfl⟩
    · dsimp only
      split_ifs
      all_goals first
        | exact endGame_frames _
        | exact ih _

lemma obstacleLoop_gameState (n : ℕ) (s : State) :
    (obstacleLoop n s).2 = false → (obstacleLoop n s).1.gameState = s.gameState := by
  induction n generalizing s with
  | zero => intro _; rfl
  | succ i ih =>
    unfold obstacleLoop
    split
    · intro h; simp at h
    · dsimp only
      split_ifs
      all_goals first
        | exact ih _
        | (intro h; simp at h)

/-- What a frame callback does to the pending list when the game is playing:
it either adds nothing (the run ended) or requests exactly one new frame and
records its id. -/
lemma gameLoop_frames (c : Canvas) (r1 r2 : UnitDraw) (s : State)
    (hp : s.gameState = GameState.playing) :
    (gameLoop c r1 r2 s).pendingFrames = s.pendingFrames ∨
    ((gameLoop c r1 r2 s).pendingFrames = s.pendingFrames ++ [s.nextFrameId] ∧
      (gameLoop c r1 r2 s).animationFrameId = some s.nextFrameId ∧
      (gameLoop c r1 r2 s).gameState = GameState.playing) := by
  have hf := obstacleLoop_frames (afterSpawn c r1 r2 s).obstacles.length (afterSpawn c r1 r2 s)
  have hg := obstacleLoop_gameState (afterSpawn c r1 r2 s).obstacles.length (afterSpawn c r1 r2 s)
  have hsame : (afterSpawn c r1 r2 s).pendingFrames = s.pendingFrames ∧
      (afterSpawn c r1 r2 s).animationFrameId = s.animationFrameId ∧
      (afterSpawn c r1 r2 s).nextFrameId = s.nextFrameId := by
    unfold afterSpawn generateNewObstaclePair
    split_ifs <;> exact ⟨rfl, rfl, rfl⟩
  rw [hsame.1, hsame.2.1, hsame.2.2] at hf
  rw [afterSpawn_gameState, hp] at hg
  rw [gameLoop_of_playing c r1 r2 s hp]
  split
  · next s3 heq =>
    rw [heq] at hf
    exact Or.inl hf.1
  · next s3 heq =>
    rw [heq] at hf hg
    right
    simp only [requestAnimationFrame]
    rw [hf.1, hf.2.2, hg rfl]
    exact ⟨rfl, rfl, rfl⟩

/-- The pending list is empty unless the game is playing, and otherwise holds
at most the callback whose id is in `animationFrameId`. -/
lemma frames_invariant_step (c : Canvas) (e : BrowserEvent) (s : State)
    (hclick : e.isClick = true → s.gameState ≠ GameState.playing)
    (h1 : s.gameState ≠ GameState.playing → s.pendingFrames = [])
    (h2 : s.pendingFrames = [] ∨
      ∃ id, s.pendingFrames = [id] ∧ s.animationFrameId = some id) :
    ((browserStep c e s).gameState ≠ GameState.playing → (browserStep c e s).pendingFrames = []) ∧
    ((browserStep c e s).pendingFrames = [] ∨
      ∃ id, (browserStep c e s).pendingFrames = [id] ∧
        (browserStep c e s).animationFrameId = some id) := by
  cases e with
  | startOrReplayClick =>
    have hnp := h1 (hclick rfl)
    simp [browserStep, startGame, setGameState, requestAnimationFrame, hnp]
  | pauseToggle =>
    simp only [browserStep, togglePause]
    by_cases hp : s.gameState = GameState.playing
    · rw [if_pos hp]
      have hempty : (setGameState GameState.paused s).pendingFrames = [] := by
        simp only [setGameState, cancelAnimationFrame]
        rcases h2 with h | ⟨id, hid, haid⟩
        · split <;> simp [h]
        · simp [haid, hid]
      exact ⟨fun _ => hempty, Or.inl hempty⟩
    · rw [if_neg hp]
      have hnp := h1 hp
      by_cases hq : s.gameState = GameState.paused
      · rw [if_pos hq]
        simp [setGameState, requestAnimationFrame, hnp]
      · rw [if_neg hq]
        exact ⟨fun _ => hnp, Or.inl hnp⟩
  | thrustStart =>
    simp only [browserStep, onThrustStart]
    split_ifs with hp
    · exact ⟨fun h => absurd hp h, h2⟩
    · exact ⟨h1, h2⟩
  | thrustEnd =>
    simp only [browserStep, onThrustEnd]
    split_ifs with hp
    · exact ⟨fun h => absurd hp h, h2⟩
    · exact ⟨h1, h2⟩
  | frame id r1 r2 =>
    simp only [browserStep, fireFrame]
    split_ifs with hmem
    · rcases h2 with h | ⟨id2, hid, _⟩
      · rw [h] at hmem; simp at hmem
      · have hidd : id = id2 := by rw [hid] at hmem; simpa using hmem
        subst hidd
        have hp : s.gameState = GameState.playing := by
          by_contra hnp
          rw [h1 hnp] at hid
          simp at hid
        have herase : s.pendingFrames.erase id = [] := by rw [hid]; simp
        have hg := gameLoop_frames c r1 r2
          { s with pendingFrames := s.pendingFrames.erase id } hp
        simp only [herase, List.nil_append] at hg ⊢
        rcases hg with hg | ⟨hg, hid2, hplay⟩
        · exact ⟨fun _ => hg, Or.inl hg⟩
        · exact ⟨fun hnp => absurd hplay hnp, Or.inr ⟨_, hg, hid2⟩⟩
    · exact ⟨h1, h2⟩

/-- Claim C13 (as written, refuted). With clicks allowed at any time, a second
click on the start button while the game is playing calls `startGame()` again,
which requests a second frame without cancelling the first: two callbacks are
pending while the state is `playing`. -/
theorem two_frames_pending_after_double_start :
    (browserRun sampleCanvas
        [BrowserEvent.startOrReplayClick, BrowserEvent.startOrReplayClick] sampleHome).gameState =
      GameState.playing ∧
    (browserRun sampleCanvas
        [BrowserEvent.startOrReplayClick, BrowserEvent.startOrReplayClick]
        sampleHome).pendingFrames = [0, 1] ∧
    sampleHome.gameState = GameState.home ∧ sampleHome.pendingFrames = [] := by
  simp [browserRun, browserStep, startGame, setGameState, requestAnimationFrame, sampleHome,
    onLoad, initialState]

/-- Claim C13 (amended). With `requestAnimationFrame` / `cancelAnimationFrame`
acting on a list of pending frame callbacks: in every state reachable from the
home state shown after page load by any sequence of events (pause toggle,
thrust start / end, firing of a pending frame callback, and start / replay
clicks that are not delivered while the game is playing), no frame callback is
pending while the game state is `home`, `paused` or `gameOver`, and at most
one is pending while it is `playing`. -/
theorem at_most_one_frame_pending (c : Canvas) (s : State) (hr : BrowserReachable c s) :
    ((s.gameState = GameState.home ∨ s.gameState = GameState.paused ∨
        s.gameState = GameState.gameOver) → s.pendingFrames = []) ∧
    (s.gameState = GameState.playing → s.pendingFrames.length ≤ 1) := by
  have key : (s.gameState ≠ GameState.playing → s.pendingFrames = []) ∧
      (s.pendingFrames = [] ∨ ∃ id, s.pendingFrames = [id] ∧ s.animationFrameId = some id) := by
    induction hr with
    | load c0 stored =>
      have hempty : (onLoad c (initialState c0 stored)).pendingFrames = [] := by
        simp only [onLoad, setGameState, initialState]
        split <;> rfl
      exact ⟨fun _ => hempty, Or.inl hempty⟩
    | step e _ hclick ih => exact frames_invariant_step c e _ hclick ih.1 ih.2
  constructor
  · intro h
    apply key.1
    rcases h with h | h | h <;> rw [h] <;> decide
  · intro _
    rcases key.2 with h | ⟨id, h, _⟩ <;> simp [h]

/-- Start, one frame, pause, resume: a reachable playing state, with exactly
one pending callback. -/
theorem at_most_one_frame_pending_witness :
    BrowserReachable sampleCanvas sampleResumed ∧
    (((sampleResumed.gameState = GameState.home ∨ sampleResumed.gameState = GameState.paused ∨
        sampleResumed.gameState = GameState.gameOver) → sampleResumed.pendingFrames = []) ∧
      (sampleResumed.gameState = GameState.playing → sampleResumed.pendingFrames.length ≤ 1)) :=
  have hr : BrowserReachable sampleCanvas sampleResumed :=
    BrowserReachable.step BrowserEvent.pauseToggle
      (BrowserReachable.step BrowserEvent.pauseToggle
        (BrowserReachable.step (BrowserEvent.frame 0 zeroDraw halfDraw)
          (BrowserReachable.step BrowserEvent.startOrReplayClick
            (BrowserReachable.load sampleCanvas none)
            (fun _ => by simp [sampleHome, onLoad, initialState, setGameState]))
          (fun h => by simp [BrowserEvent.isClick] at h))
        (fun h => by simp [BrowserEvent.isClick] at h))
      (fun h => by simp [BrowserEvent.isClick] at h)
  ⟨hr, at_most_one_frame_pending sampleCanvas sampleResumed hr⟩

/-! ## The obstacle loop when a collision is detected -/

lemma checkCollision_processed (ship : Spaceship) (shipX : ℚ) (o : Obstacle) :
    checkCollision ship (processed shipX o) = checkCollision ship o.update := by
  unfold processed
  split_ifs <;> rfl

/-- The iterations over a suffix `m` of the list in which nothing collides. -/
lemma obstacleLoop_suffix_noCollision (m : List Obstacle) :
    ∀ (pre post : List Obstacle) (s : State), s.obstacles = pre ++ (m ++ post) →
      (∀ o ∈ m, checkCollision s.ship (processed s.ship.x o) = false) →
      obstacleLoop (pre ++ m).length s =
        obstacleLoop pre.length
          { s with obstacles := pre ++ (retained (m.map (processed s.ship.x)) ++ post),
                   score := s.score + scoreGainFrom s.ship.x pre.length m } := by
  induction m using List.reverseRecOn with
  | nil =>
    intro pre post s hs _
    simp only [List.append_nil, List.map_nil, retained, List.filter_nil, List.nil_append,
      scoreGainFrom, add_zero]
    rw [List.nil_append] at hs
    rw [← hs]
  | append_singleton m a ih =>
    intro pre post s hs hc
    have hs2 : s.obstacles = (pre ++ m) ++ a :: post := by simpa using hs
    have hca : checkCollision s.ship (processed s.ship.x a) = false := hc a (by simp)
    have hlen : (pre ++ (m ++ [a])).length = (pre ++ m).length + 1 := by
      simp only [List.length_append, List.length_singleton]
      omega
    rw [hlen, obstacleLoop_succ_noCollision (pre ++ m) a post s hs2 hca]
    rw [ih pre (retained [processed s.ship.x a] ++ post)
      { s with obstacles := (pre ++ m) ++ (retained [processed s.ship.x a] ++ post),
               score := s.score +
                 (if passesNow s.ship.x a && decide ((pre ++ m).length % 2 = 0) then 1 else 0) }
      (by simp) (fun o ho => hc o (by simp [ho]))]
    simp only [List.map_append, List.map_cons, List.map_nil, retained_append,
      scoreGainFrom_append, List.append_assoc, List.length_append, add_assoc]
    rw [add_comm (scoreGainFrom s.ship.x pre.length m)]

/-- The whole loop when `a` is the last obstacle of the list that collides:
the obstacles after `a` are processed, `a` is advanced and tested for a pass,
and only then does its collision end the run. -/
lemma obstacleLoop_first_collision (l : List Obstacle) (a : Obstacle) (m post : List Obstacle)
    (s : State) (hs : s.obstacles = l ++ a :: (m ++ post))
    (hm : ∀ o ∈ m, checkCollision s.ship (processed s.ship.x o) = false)
    (ha : checkCollision s.ship (processed s.ship.x a) = true) :
    obstacleLoop (l ++ a :: m).length s =
      (endGame { s with
          obstacles := l ++ processed s.ship.x a ::
            (retained (m.map (processed s.ship.x)) ++ post),
          score := s.score + scoreGainFrom s.ship.x l.length (a :: m) }, true) := by
  have hsplit : l ++ a :: m = (l ++ [a]) ++ m := by simp
  rw [hsplit, obstacleLoop_suffix_noCollision m (l ++ [a]) post s (by simpa using hs) hm]
  rw [List.length_append, List.length_singleton]
  rw [obstacleLoop_succ_collision l a (retained (m.map (processed s.ship.x)) ++ post)
    { s with obstacles := (l ++ [a]) ++ (retained (m.map (processed s.ship.x)) ++ post),
             score := s.score + scoreGainFrom s.ship.x (l.length + 1) m }
    (by simp) ha]
  simp only [scoreGainFrom, List.length_append, List.length_singleton, add_assoc]
  rw [add_comm (scoreGainFrom s.ship.x (l.length + 1) m)]

/-- Among the obstacles satisfying a test, one is the last in list order. -/
lemma exists_last_satisfying (P : Obstacle → Bool) (live : List Obstacle) :
    (∃ o ∈ live, P o = true) →
      ∃ l a m, live = l ++ a :: m ∧ P a = true ∧ ∀ o ∈ m, P o = false := by
  induction live using List.reverseRecOn with
  | nil =>
    rintro ⟨o, ho, _⟩
    simp at ho
  | append_singleton live b ih =>
    rintro ⟨o, ho, hP⟩
    by_cases hb : P b = true
    · exact ⟨live, b, [], rfl, hb, by simp⟩
    · have hb2 : P b = false := by simpa using hb
      have hin : o ∈ live := by
        rcases List.mem_append.mp ho with h | h
        · exact h
        · simp only [List.mem_singleton] at h
          subst h
          exact absurd hP hb
      obtain ⟨l, a, m, hl, ha, hm⟩ := ih ⟨o, hin, hP⟩
      refine ⟨l, a, m ++ [b], by simp [hl], ha, ?_⟩
      intro x hx
      rcases List.mem_append.mp hx with h | h
      · exact hm x h
      · simp only [List.mem_singleton] at h
        subst h
        exact hb2

lemma afterSpawn_obstacles_eq_liveInTick (c : Canvas) (r1 r2 : UnitDraw) (s : State) :
    (afterSpawn c r1 r2 s).obstacles = liveInTick c r1 r2 s := by
  rw [afterSpawn_obstacles, liveInTick]
  split_ifs <;> simp

/-- A tick from a playing state in which `a` is the last obstacle of the live
list that collides. -/
lemma gameLoop_first_collision (c : Canvas) (r1 r2 : UnitDraw) (s : State)
    (hp : s.gameState = GameState.playing) (l : List Obstacle) (a : Obstacle)
    (m : List Obstacle) (hlive : liveInTick c r1 r2 s = l ++ a :: m)
    (hm : ∀ o ∈ m, checkCollision (s.ship.update c) (processed s.ship.x o) = false)
    (ha : checkCollision (s.ship.update c) (processed s.ship.x a) = true) :
    gameLoop c r1 r2 s =
      endGame { afterSpawn c r1 r2 s with
        obstacles := l ++ processed s.ship.x a :: retained (m.map (processed s.ship.x)),
        score := s.score + scoreGainFrom s.ship.x l.length (a :: m) } := by
  have hobs := afterSpawn_obstacles_eq_liveInTick c r1 r2 s
  rw [gameLoop_of_playing c r1 r2 s hp, hobs, hlive]
  rw [obstacleLoop_first_collision l a m [] (afterSpawn c r1 r2 s)
    (by simp [hobs, hlive]) (by simpa [update_x] using hm) (by simpa [update_x] using ha)]
  simp only [afterSpawn_ship, update_x, List.append_nil, afterSpawn_score]

/-! ## Order of pass test and collision test -/

/-- Claim C17 (as written, refuted). On the 50-wide canvas, with draws `0`
(gap 150) and `3/4` (top height 325), the first tick after `startGame()`
spawns a pair that reaches down to the craft: the top obstacle is advanced,
found behind the nose and scored, and only then found to collide. The tick
ends the run with the score raised from 0 to 1 (which also becomes the best
score and is written to the storage). -/
theorem score_raised_in_colliding_tick :
    narrowStart.gameState = GameState.playing ∧ narrowStart.score = 0 ∧
    (gameLoop narrowCanvas zeroDraw threeQuarterDraw narrowStart).gameState =
      GameState.gameOver ∧
    (gameLoop narrowCanvas zeroDraw threeQuarterDraw narrowStart).score = 1 ∧
    (gameLoop narrowCanvas zeroDraw threeQuarterDraw narrowStart).setItemLog = ["1"] := by
  have hrepr : Nat.repr 1 = "1" := by decide
  refine ⟨by simp [narrowStart, startGame], by simp [narrowStart, startGame], ?_, ?_, ?_⟩
  all_goals
    norm_num [gameLoop, narrowStart, narrowCanvas, startGame, initialState, setGameState,
      requestAnimationFrame, Spaceship.initial, Spaceship.reset, Spaceship.update,
      Spaceship.steppedVelocity, GravityPull, SpaceThrustPower, MaxVerticalVelocity,
      obstacleSpawnInterval, generateNewObstaclePair, newObstaclePair, Obstacle.new,
      zeroDraw, threeQuarterDraw, maxObstacleGap, minObstacleGap, obstacleLoop, Obstacle.update,
      obstacleSpeed, checkCollision, endGame, scoreExceeds, setItem, hrepr]

/-- Claim C17 (amended). Within a tick the obstacles are handled from the last
to the first, and for each obstacle the pass test and the score update come
before its collision test. For every playing state, a `gameLoop` tick in which
a collision is detected ends the run with the score raised by the number of
even-index obstacles that pass in that tick among the colliding obstacle `a`
(the last one in list order that collides) and the obstacles after it; the
obstacles before `a` are not looked at, and the score does not decrease. -/
theorem score_in_colliding_tick (c : Canvas) (r1 r2 : UnitDraw) (s : State)
    (hp : s.gameState = GameState.playing)
    (hcol : ∃ o ∈ liveInTick c r1 r2 s, checkCollision (s.ship.update c) o.update = true) :
    (gameLoop c r1 r2 s).gameState = GameState.gameOver ∧
    s.score ≤ (gameLoop c r1 r2 s).score ∧
    ∃ (l : List Obstacle) (a : Obstacle) (m : List Obstacle),
      liveInTick c r1 r2 s = l ++ a :: m ∧
      checkCollision (s.ship.update c) a.update = true ∧
      (∀ o ∈ m, checkCollision (s.ship.update c) o.update = false) ∧
      (gameLoop c r1 r2 s).score = s.score + scoreGainFrom s.ship.x l.length (a :: m) ∧
      (gameLoop c r1 r2 s).obstacles.take l.length = l := by
  obtain ⟨l, a, m, hlive, ha, hm⟩ :=
    exists_last_satisfying (fun o => checkCollision (s.ship.update c) o.update)
      (liveInTick c r1 r2 s) hcol
  have hg := gameLoop_first_collision c r1 r2 s hp l a m hlive
    (fun o ho => by rw [checkCollision_processed]; exact hm o ho)
    (by rw [checkCollision_processed]; exact ha)
  refine ⟨by rw [hg]; simp, by rw [hg]; simp, l, a, m, hlive, ha, hm, by rw [hg]; simp, ?_⟩
  rw [hg]
  simp

/-- The colliding first tick on the 50-wide canvas: the spawned top obstacle
collides, and the score goes from 0 to 1. -/
theorem score_in_colliding_tick_witness :
    (narrowStart.gameState = GameState.playing ∧
      ∃ o ∈ liveInTick narrowCanvas zeroDraw threeQuarterDraw narrowStart,
        checkCollision (narrowStart.ship.update narrowCanvas) o.update = true) ∧
    ((gameLoop narrowCanvas zeroDraw threeQuarterDraw narrowStart).gameState =
        GameState.gameOver ∧
      narrowStart.score ≤ (gameLoop narrowCanvas zeroDraw threeQuarterDraw narrowStart).score ∧
      ∃ (l : List Obstacle) (a : Obstacle) (m : List Obstacle),
        liveInTick narrowCanvas zeroDraw threeQuarterDraw narrowStart = l ++ a :: m ∧
        checkCollision (narrowStart.ship.update narrowCanvas) a.update = true ∧
        (∀ o ∈ m, checkCollision (narrowStart.ship.update narrowCanvas) o.update = false) ∧
        (gameLoop narrowCanvas zeroDraw threeQuarterDraw narrowStart).score =
          narrowStart.score + scoreGainFrom narrowStart.ship.x l.length (a :: m) ∧
        (gameLoop narrowCanvas zeroDraw threeQuarterDraw narrowStart).obstacles.take l.length =
          l) :=
  have hp : narrowStart.gameState = GameState.playing := by simp [narrowStart, startGame]
  have hcol : ∃ o ∈ liveInTick narrowCanvas zeroDraw threeQuarterDraw narrowStart,
      checkCollision (narrowStart.ship.update narrowCanvas) o.update = true := by
    refine ⟨(newObstaclePair narrowCanvas zeroDraw threeQuarterDraw).1, ?_, ?_⟩
    · simp [liveInTick, narrowStart, startGame, obstacleSpawnInterval]
    · norm_num [narrowStart, narrowCanvas, startGame, initialState, setGameState,
        requestAnimationFrame, Spaceship.initial, Spaceship.reset, Spaceship.update,
        Spaceship.steppedVelocity, GravityPull, SpaceThrustPower, MaxVerticalVelocity,
        newObstaclePair, Obstacle.new, zeroDraw, threeQuarterDraw, maxObstacleGap,
        minObstacleGap, Obstacle.update, obstacleSpeed, checkCollision]
  ⟨⟨hp, hcol⟩,
   score_in_colliding_tick narrowCanvas zeroDraw threeQuarterDraw narrowStart hp hcol⟩

/-! ## Spawn cadence and list length -/

lemma retained_length_add_retired (shipX : ℚ) (l : List Obstacle) :
    (retained (l.map (processed shipX))).length +
      (l.map Obstacle.update).countP (fun o => decide (o.x + o.width < 0)) = l.length := by
  induction l with
  | nil => rfl
  | cons a l ih =>
    simp only [retained, List.map_cons, List.filter_cons, List.countP_cons,
      List.length_cons] at ih ⊢
    by_cases h : a.update.x + a.update.width < 0
    · have h2 := (processed_offscreen shipX a).mpr h
      simp only [h, h2, decide_True, Bool.not_true, Bool.false_eq_true, if_false, if_true]
      omega
    · have h2 : ¬ ((processed shipX a).x + (processed shipX a).width < 0) :=
        fun hh => h ((processed_offscreen shipX a).mp hh)
      simp only [h, h2, decide_False, Bool.not_false, if_true, List.length_cons,
        Bool.false_eq_true, if_false]
      omega

lemma liveInTick_length (c : Canvas) (r1 r2 : UnitDraw) (s : State) :
    (liveInTick c r1 r2 s).length =
      s.obstacles.length + (if s.frameCount % obstacleSpawnInterval = 0 then 2 else 0) := by
  unfold liveInTick
  split_ifs <;> simp

lemma pairsSpawnedInTick_eq (c : Canvas) (r1 r2 : UnitDraw) (s : State)
    (hp : s.gameState = GameState.playing) :
    pairsSpawnedInTick c r1 r2 s =
      (if s.frameCount % obstacleSpawnInterval = 0 then 1 else 0) := by
  unfold pairsSpawnedInTick
  rw [if_pos hp, afterSpawn_obstacles_eq_liveInTick, liveInTick_length]
  split_ifs <;> simp

lemma gameLoop_frameCount_of_still_playing (c : Canvas) (r1 r2 : UnitDraw) (s : State)
    (hp : s.gameState = GameState.playing)
    (hn : (gameLoop c r1 r2 s).gameState = GameState.playing) :
    (gameLoop c r1 r2 s).frameCount = s.frameCount + 1 := by
  rw [gameLoop_noCollision c r1 r2 s hp (noCollision_of_still_playing c r1 r2 s hp hn)]
  rfl

lemma runTicks_of_not_playing (c : Canvas) (ds : List (UnitDraw × UnitDraw)) (s : State)
    (hp : s.gameState ≠ GameState.playing) : runTicks c ds s = s := by
  induction ds with
  | nil => rfl
  | cons d ds ih => rw [runTicks, gameLoop_of_not_playing c d.1 d.2 s hp, ih]

lemma gameLoop_gameState (c : Canvas) (r1 r2 : UnitDraw) (s : State)
    (hn : (gameLoop c r1 r2 s).gameState = GameState.playing) :
    s.gameState = GameState.playing := by
  by_contra hp
  rw [gameLoop_of_not_playing c r1 r2 s hp] at hn
  exact hp hn

/-- Consecutive ticks that leave the game playing: the frame counter counts
them, and the pairs pushed are those of the frames that are multiples of the
spawn interval. -/
lemma spawnsDuring_of_still_playing (c : Canvas) (ds : List (UnitDraw × UnitDraw)) :
    ∀ s : State, s.gameState = GameState.playing →
      (runTicks c ds s).gameState = GameState.playing →
      (runTicks c ds s).frameCount = s.frameCount + ds.length ∧
      spawnsDuring c ds s + (s.frameCount + 119) / 120 =
        (s.frameCount + ds.length + 119) / 120 := by
  induction ds with
  | nil => intro s _ _; simp [runTicks, spawnsDuring]
  | cons d ds ih =>
    intro s hp hfin
    rw [runTicks] at hfin ⊢
    have hn : (gameLoop c d.1 d.2 s).gameState = GameState.playing := by
      by_contra hnp
      rw [runTicks_of_not_playing c ds _ hnp] at hfin
      exact hnp hfin
    have hfc := gameLoop_frameCount_of_still_playing c d.1 d.2 s hp hn
    obtain ⟨h1, h2⟩ := ih _ hn hfin
    rw [hfc] at h1 h2
    rw [spawnsDuring, pairsSpawnedInTick_eq c d.1 d.2 s hp, List.length_cons]
    simp only [obstacleSpawnInterval]
    constructor
    · omega
    · split_ifs <;> omega

/-- Claim C15. A `gameLoop` tick from a playing state pushes a pair if and
only if `frameCount` at the start of the tick is a multiple of
`obstacleSpawnInterval = 120`, and a spawn adds exactly two obstacles. For
every tick that completes without a collision, new length = old length +
(2 if `frameCount mod 120 = 0` else 0) − (number of obstacles retired for
`x + width < 0`), and `frameCount` increases by exactly 1. So after `n` such
ticks from `startGame()` exactly `⌈n/120⌉` pairs have been spawned. -/
theorem spawn_cadence_and_list_length (c : Canvas) :
    (∀ (r1 r2 : UnitDraw) (s : State), s.gameState = GameState.playing →
      pairsSpawnedInTick c r1 r2 s = (if s.frameCount % 120 = 0 then 1 else 0) ∧
      (afterSpawn c r1 r2 s).obstacles.length =
        s.obstacles.length + 2 * pairsSpawnedInTick c r1 r2 s) ∧
    (∀ (r1 r2 : UnitDraw) (s : State), s.gameState = GameState.playing →
      (gameLoop c r1 r2 s).gameState = GameState.playing →
      (gameLoop c r1 r2 s).obstacles.length =
        s.obstacles.length + (if s.frameCount % 120 = 0 then 2 else 0) -
          retiredInTick c r1 r2 s ∧
      retiredInTick c r1 r2 s ≤
        s.obstacles.length + (if s.frameCount % 120 = 0 then 2 else 0) ∧
      (gameLoop c r1 r2 s).frameCount = s.frameCount + 1) ∧
    (∀ (s0 : State) (ds : List (UnitDraw × UnitDraw)),
      (runTicks c ds (startGame c s0)).gameState = GameState.playing →
      spawnsDuring c ds (startGame c s0) = (ds.length + 119) / 120 ∧
      (runTicks c ds (startGame c s0)).frameCount = ds.length) := by
  refine ⟨?_, ?_, ?_⟩
  · intro r1 r2 s hp
    have h := pairsSpawnedInTick_eq c r1 r2 s hp
    simp only [obstacleSpawnInterval] at h
    refine ⟨h, ?_⟩
    rw [h, afterSpawn_obstacles_eq_liveInTick, liveInTick_length]
    simp only [obstacleSpawnInterval]
    split_ifs <;> rfl
  · intro r1 r2 s hp hn
    have hc := noCollision_of_still_playing c r1 r2 s hp hn
    have hlen := retained_length_add_retired s.ship.x (liveInTick c r1 r2 s)
    rw [liveInTick_length] at hlen
    simp only [obstacleSpawnInterval] at hlen
    have hobs : (gameLoop c r1 r2 s).obstacles =
        retained ((liveInTick c r1 r2 s).map (processed s.ship.x)) := by
      rw [gameLoop_noCollision c r1 r2 s hp hc]
      rfl
    rw [hobs]
    refine ⟨?_, ?_, gameLoop_frameCount_of_still_playing c r1 r2 s hp hn⟩
    · unfold retiredInTick
      omega
    · unfold retiredInTick
      omega
  · intro s0 ds hfin
    have hp : (startGame c s0).gameState = GameState.playing := by simp [startGame]
    have hfc : (startGame c s0).frameCount = 0 := by simp [startGame]
    obtain ⟨h1, h2⟩ := spawnsDuring_of_still_playing c ds _ hp hfin
    rw [hfc] at h1 h2
    constructor
    · omega
    · omega

/-- A spawn frame, a later frame that retires a pair, and one tick after
`startGame()`. -/
theorem spawn_cadence_and_list_length_witness :
    (sampleStart.gameState = GameState.playing ∧
      retiringState.gameState = GameState.playing ∧
      (gameLoop sampleCanvas zeroDraw halfDraw retiringState).gameState = GameState.playing ∧
      (runTicks sampleCanvas [(zeroDraw, halfDraw)]
        (startGame sampleCanvas (initialState sampleCanvas none))).gameState =
          GameState.playing) ∧
    (pairsSpawnedInTick sampleCanvas zeroDraw halfDraw sampleStart =
        (if sampleStart.frameCount % 120 = 0 then 1 else 0) ∧
      (afterSpawn sampleCanvas zeroDraw halfDraw sampleStart).obstacles.length =
        sampleStart.obstacles.length +
          2 * pairsSpawnedInTick sampleCanvas zeroDraw halfDraw sampleStart) ∧
    ((gameLoop sampleCanvas zeroDraw halfDraw retiringState).obstacles.length =
        retiringState.obstacles.length + (if retiringState.frameCount % 120 = 0 then 2 else 0) -
          retiredInTick sampleCanvas zeroDraw halfDraw retiringState ∧
      retiredInTick sampleCanvas zeroDraw halfDraw retiringState ≤
        retiringState.obstacles.length + (if retiringState.frameCount % 120 = 0 then 2 else 0) ∧
      (gameLoop sampleCanvas zeroDraw halfDraw retiringState).frameCount =
        retiringState.frameCount + 1) ∧
    (spawnsDuring sampleCanvas [(zeroDraw, halfDraw)]
        (startGame sampleCanvas (initialState sampleCanvas none)) =
          ([(zeroDraw, halfDraw)].length + 119) / 120 ∧
      (runTicks sampleCanvas [(zeroDraw, halfDraw)]
        (startGame sampleCanvas (initialState sampleCanvas none))).frameCount =
          [(zeroDraw, halfDraw)].length) :=
  have hp : sampleStart.gameState = GameState.playing := by simp [sampleStart, startGame]
  have hp2 : retiringState.gameState = GameState.playing := by
    simp [retiringState, sampleStart, startGame]
  have hn2 : (gameLoop sampleCanvas zeroDraw halfDraw retiringState).gameState =
      GameState.playing := by
    norm_num [gameLoop, retiringState, sampleStart, sampleCanvas, startGame, initialState,
      setGameState, requestAnimationFrame, Spaceship.initial, Spaceship.reset, Spaceship.update,
      Spaceship.steppedVelocity, GravityPull, SpaceThrustPower, MaxVerticalVelocity,
      obstacleSpawnInterval, obstacleLoop, Obstacle.update, obstacleSpeed, checkCollision]
  have hn3 : (runTicks sampleCanvas [(zeroDraw, halfDraw)]
      (startGame sampleCanvas (initialState sampleCanvas none))).gameState =
        GameState.playing := by
    norm_num [runTicks, gameLoop, sampleCanvas, startGame, initialState, setGameState,
      requestAnimationFrame, Spaceship.initial, Spaceship.reset, Spaceship.update,
      Spaceship.steppedVelocity, GravityPull, SpaceThrustPower, MaxVerticalVelocity,
      obstacleSpawnInterval, generateNewObstaclePair, newObstaclePair, Obstacle.new,
      zeroDraw, halfDraw, maxObstacleGap, minObstacleGap, obstacleLoop, Obstacle.update,
      obstacleSpeed, checkCollision]
  ⟨⟨hp, hp2, hn2, hn3⟩,
   (spawn_cadence_and_list_length sampleCanvas).1 zeroDraw halfDraw sampleStart hp,
   (spawn_cadence_and_list_length sampleCanvas).2.1 zeroDraw halfDraw retiringState hp2 hn2,
   (spawn_cadence_and_list_length sampleCanvas).2.2 (initialState sampleCanvas none)
     [(zeroDraw, halfDraw)] hn3⟩

/-! ## Pairing by index parity -/

lemma processed_shape (shipX : ℚ) (o : Obstacle) : (processed shipX o).shape = o.shape := by
  unfold processed
  split_ifs <;> rfl

lemma processed_x (shipX : ℚ) (o : Obstacle) : (processed shipX o).x = o.x - obstacleSpeed := by
  unfold processed
  split_ifs <;> rfl

lemma processed_width (shipX : ℚ) (o : Obstacle) : (processed shipX o).width = o.width := by
  unfold processed
  split_ifs <;> rfl

lemma mem_flattenPairs (ps : List (Obstacle × Obstacle)) (b : Obstacle) :
    b ∈ flattenPairs ps ↔ ∃ q ∈ ps, b = q.1 ∨ b = q.2 := by
  induction ps with
  | nil => simp [flattenPairs]
  | cons p ps ih =>
    simp only [flattenPairs, List.mem_cons, ih]
    constructor
    · rintro (h | h | ⟨q, hq, h⟩)
      · exact ⟨p, Or.inl rfl, Or.inl h⟩
      · exact ⟨p, Or.inl rfl, Or.inr h⟩
      · exact ⟨q, Or.inr hq, h⟩
    · rintro ⟨q, hq | hq, h⟩
      · subst hq
        rcases h with h | h
        · exact Or.inl h
        · exact Or.inr (Or.inl h)
      · exact Or.inr (Or.inr ⟨q, hq, h⟩)

lemma flattenPairs_length (ps : List (Obstacle × Obstacle)) :
    (flattenPairs ps).length = 2 * ps.length := by
  induction ps with
  | nil => rfl
  | cons p ps ih =>
    simp only [flattenPairs, List.length_cons, ih]
    omega

/-- A list ordered by `x` at the level of pairs is ordered at the level of
obstacles, when the members of each pair share `x`. -/
lemma flattenPairs_pairwise (ps : List (Obstacle × Obstacle))
    (hsorted : ps.Pairwise (fun p q => p.1.x ≤ q.1.x)) (hx : ∀ p ∈ ps, p.1.x = p.2.x) :
    (flattenPairs ps).Pairwise (fun a b => a.x ≤ b.x) := by
  induction ps with
  | nil => simp [flattenPairs]
  | cons p ps ih =>
    rw [List.pairwise_cons] at hsorted
    have hp := hx p (List.mem_cons_self p ps)
    have hrest : ∀ b ∈ flattenPairs ps, p.1.x ≤ b.x := by
      intro b hb
      obtain ⟨q, hq, h⟩ := (mem_flattenPairs ps b).mp hb
      have h1 := hsorted.1 q hq
      have h2 := hx q (List.mem_cons_of_mem _ hq)
      rcases h with h | h
      · rw [h]; exact h1
      · rw [h, ← h2]; exact h1
    simp only [flattenPairs, List.pairwise_cons, List.mem_cons]
    refine ⟨?_, ?_, ih hsorted.2 (fun q hq => hx q (List.mem_cons_of_mem _ hq))⟩
    · rintro b (hb | hb)
      · rw [hb, hp]
      · exact hrest b hb
    · intro b hb
      rw [← hp]
      exact hrest b hb

/-- A list with the shapes of a list of pairs spawned together is itself made
of pairs spawned together. -/
lemma spawnedTogether_of_map_shape (c : Canvas) (ps : List (Obstacle × Obstacle)) :
    ∀ l : List Obstacle, l.map Obstacle.shape = (flattenPairs ps).map Obstacle.shape →
      (∀ p ∈ ps, SpawnedTogether c p) →
      ∃ qs : List (Obstacle × Obstacle), l = flattenPairs qs ∧ ∀ q ∈ qs, SpawnedTogether c q := by
  induction ps with
  | nil =>
    intro l hl _
    refine ⟨[], ?_, by simp⟩
    simpa [flattenPairs] using hl
  | cons p ps ih =>
    intro l hl hsp
    match l, hl with
    | a :: b :: rest, hl =>
      simp only [flattenPairs, List.map_cons, List.cons.injEq] at hl
      obtain ⟨ha, hb, hrest⟩ := hl
      obtain ⟨qs, hqs, hq⟩ := ih rest hrest (fun q hq => hsp q (List.mem_cons_of_mem _ hq))
      obtain ⟨r1, r2, h1, h2⟩ := hsp p (List.mem_cons_self p ps)
      refine ⟨(a, b) :: qs, by simp [flattenPairs, hqs], ?_⟩
      intro q hq2
      rcases List.mem_cons.mp hq2 with h | h
      · subst h
        exact ⟨r1, r2, by rw [← h1]; exact ha, by rw [← h2]; exact hb⟩
      · exact hq q h
    | [a], hl => simp [flattenPairs] at hl
    | [], hl => simp [flattenPairs] at hl

lemma SpawnedTogether.width_eq {c : Canvas} {p : Obstacle × Obstacle}
    (h : SpawnedTogether c p) : p.1.width = 40 ∧ p.2.width = 40 ∧ p.1.y = 0 := by
  obtain ⟨r1, r2, h1, h2⟩ := h
  simp only [Obstacle.shape, newObstaclePair, Obstacle.new, Prod.mk.injEq] at h1 h2
  exact ⟨h1.2.1, h2.2.1, h1.1⟩

lemma spawnedTogether_processedPair (c : Canvas) (shipX : ℚ) (p : Obstacle × Obstacle)
    (h : SpawnedTogether c p) : SpawnedTogether c (processedPair shipX p) := by
  obtain ⟨r1, r2, h1, h2⟩ := h
  exact ⟨r1, r2, by simp only [processedPair, processed_shape, h1],
    by simp only [processedPair, processed_shape, h2]⟩

lemma spawnedTogether_newObstaclePair (c : Canvas) (r1 r2 : UnitDraw) :
    SpawnedTogether c (newObstaclePair c r1 r2) :=
  ⟨r1, r2, rfl, rfl⟩

lemma update_width (c : Canvas) (s : Spaceship) : (s.update c).width = s.width := by
  unfold Spaceship.update
  dsimp only
  split_ifs <;> rfl

/-- The pairs a tick works on: the pairs live before it, then at most the
freshly built pair. -/
lemma liveInTick_pairs (c : Canvas) (r1 r2 : UnitDraw) (s : State)
    (ps : List (Obstacle × Obstacle)) (hs : s.obstacles = flattenPairs ps) :
    ∃ sp : List (Obstacle × Obstacle),
      liveInTick c r1 r2 s = flattenPairs (ps ++ sp) ∧
      (∀ p ∈ sp, p = newObstaclePair c r1 r2) ∧
      sp.Pairwise (fun p q => p.1.x ≤ q.1.x) := by
  refine ⟨_, liveInTick_flattenPairs c r1 r2 s ps hs, ?_, ?_⟩ <;> split_ifs <;> simp

/-- The pairs of a tick agree on `x`, `width` and flag, carry a flag only
when behind the nose, were spawned together, are ordered by `x` and are not
right of the canvas edge. -/
lemma tick_pairs_facts (c : Canvas) (r1 r2 : UnitDraw) (shipX : ℚ)
    (ps sp : List (Obstacle × Obstacle))
    (hsp : ∀ p ∈ ps, SpawnedTogether c p) (hgood : ∀ p ∈ ps, GoodPair shipX p)
    (hsorted : ps.Pairwise (fun p q => p.1.x ≤ q.1.x))
    (hbound : ∀ p ∈ ps, p.1.x ≤ (c.width : ℚ))
    (hnew : ∀ p ∈ sp, p = newObstaclePair c r1 r2)
    (hnewsorted : sp.Pairwise (fun p q => p.1.x ≤ q.1.x)) :
    (∀ p ∈ ps ++ sp,
      (p.1.x = p.2.x ∧ p.1.width = p.2.width ∧ p.1.isPassed = p.2.isPassed ∧ p.1.y = 0 ∧
        (p.1.isPassed = true → p.1.x + p.1.width < shipX)) ∧
      SpawnedTogether c p ∧ p.1.x ≤ (c.width : ℚ)) ∧
    (ps ++ sp).Pairwise (fun p q => p.1.x ≤ q.1.x) := by
  constructor
  · intro p hp
    rcases List.mem_append.mp hp with h | h
    · have g := hgood p h
      exact ⟨⟨g.1, g.2.1, g.2.2.1, g.2.2.2.1, g.weaken⟩, hsp p h, hbound p h⟩
    · rw [hnew p h]
      have sh := newObstaclePair_shape c r1 r2
      refine ⟨⟨sh.1, sh.2.1, sh.2.2.1, sh.2.2.2.1, ?_⟩, spawnedTogether_newObstaclePair c r1 r2, ?_⟩
      · intro hh
        rw [sh.2.2.2.2] at hh
        exact absurd hh (by decide)
      · simp [newObstaclePair, Obstacle.new]
  · rw [List.pairwise_append]
    refine ⟨hsorted, hnewsorted, ?_⟩
    intro p hp q hq
    rw [hnew q hq]
    have := hbound p hp
    simpa [newObstaclePair, Obstacle.new] using this

/-- A tick without collision keeps the run invariant. -/
lemma runInv_tick_noCollision (c : Canvas) (r1 r2 : UnitDraw) (s : State)
    (hp : s.gameState = GameState.playing) (hinv : RunInv c s)
    (hc : ∀ o ∈ liveInTick c r1 r2 s,
      checkCollision (s.ship.update c) (processed s.ship.x o) = false) :
    RunInv c (gameLoop c r1 r2 s) ∧
    ∃ ps sp : List (Obstacle × Obstacle),
      s.obstacles = flattenPairs ps ∧ liveInTick c r1 r2 s = flattenPairs (ps ++ sp) ∧
      (gameLoop c r1 r2 s).obstacles =
        flattenPairs (((ps ++ sp).map (processedPair s.ship.x)).filter
          (fun p => !decide (p.1.x + p.1.width < 0))) := by
  obtain ⟨ps, hs, hsp, hplay⟩ := hinv
  obtain ⟨hgood, hsorted, hbound⟩ := hplay (Or.inl hp)
  obtain ⟨sp, hlive, hnew, hnewsorted⟩ := liveInTick_pairs c r1 r2 s ps hs
  obtain ⟨hall, hallsorted⟩ :=
    tick_pairs_facts c r1 r2 s.ship.x ps sp hsp hgood hsorted hbound hnew hnewsorted
  have hspeed : (0 : ℚ) ≤ obstacleSpeed := by norm_num [obstacleSpeed]
  have hq : ∀ q ∈ (ps ++ sp).map (processedPair s.ship.x),
      GoodPair s.ship.x q ∧ SpawnedTogether c q ∧ q.1.x ≤ (c.width : ℚ) := by
    intro q hq
    obtain ⟨p, hp2, rfl⟩ := List.mem_map.mp hq
    obtain ⟨⟨h1, h2, h3, h4, h5⟩, h6, h7⟩ := hall p hp2
    refine ⟨goodPair_processed s.ship.x p h1 h2 h3 h4 h5,
      spawnedTogether_processedPair c s.ship.x p h6, ?_⟩
    simp only [processedPair, processed_x]
    linarith
  have hobs : (gameLoop c r1 r2 s).obstacles =
      flattenPairs (((ps ++ sp).map (processedPair s.ship.x)).filter
        (fun p => !decide (p.1.x + p.1.width < 0))) := by
    rw [gameLoop_noCollision c r1 r2 s hp hc]
    simp only [requestAnimationFrame]
    rw [hlive, map_flattenPairs]
    exact retained_flattenPairs _ (fun q hq2 => ⟨(hq q hq2).1.1, (hq q hq2).1.2.1⟩)
  have hx : (gameLoop c r1 r2 s).ship.x = s.ship.x := by
    rw [gameLoop_ship c r1 r2 s hp, update_x]
  refine ⟨⟨_, hobs, fun q hq2 => (hq q (List.mem_of_mem_filter hq2)).2.1, ?_⟩,
    ps, sp, hs, hlive, hobs⟩
  intro _
  rw [hx]
  refine ⟨fun q hq2 => (hq q (List.mem_of_mem_filter hq2)).1, ?_,
    fun q hq2 => (hq q (List.mem_of_mem_filter hq2)).2.2⟩
  apply List.Pairwise.filter
  rw [List.pairwise_map]
  refine hallsorted.imp ?_
  intro p q hpq
  simp only [processedPair, processed_x]
  linarith

/-- A tick that ends in a collision leaves a list of pairs spawned together:
when the craft's tail is not left of the canvas, nothing is retired before the
collision is found. -/
lemma runInv_tick_collision (c : Canvas) (r1 r2 : UnitDraw) (s : State)
    (hp : s.gameState = GameState.playing) (hinv : RunInv c s)
    (hship : 0 ≤ s.ship.x - s.ship.width / 2)
    (hcol : ∃ o ∈ liveInTick c r1 r2 s,
      checkCollision (s.ship.update c) (processed s.ship.x o) = true) :
    RunInv c (gameLoop c r1 r2 s) := by
  obtain ⟨ps, hs, hsp, hplay⟩ := hinv
  obtain ⟨hgood, hsorted, hbound⟩ := hplay (Or.inl hp)
  obtain ⟨sp, hlive, hnew, hnewsorted⟩ := liveInTick_pairs c r1 r2 s ps hs
  obtain ⟨hall, hallsorted⟩ :=
    tick_pairs_facts c r1 r2 s.ship.x ps sp hsp hgood hsorted hbound hnew hnewsorted
  obtain ⟨l, a, m, hsplit, ha, hm⟩ :=
    exists_last_satisfying (fun o => checkCollision (s.ship.update c) (processed s.ship.x o))
      (liveInTick c r1 r2 s) hcol
  have hover : (gameLoop c r1 r2 s).gameState = GameState.gameOver :=
    gameLoop_collision c r1 r2 s hp hcol
  -- every obstacle of the tick is 40 wide, and the list is ordered by `x`
  have hwidth : ∀ o ∈ liveInTick c r1 r2 s, o.width = 40 := by
    intro o ho
    rw [hlive] at ho
    obtain ⟨q, hq, h⟩ := (mem_flattenPairs _ o).mp ho
    have hw := (hall q hq).2.1.width_eq
    rcases h with h | h
    · rw [h]; exact hw.1
    · rw [h]; exact hw.2.1
  have hord : (liveInTick c r1 r2 s).Pairwise (fun x y => x.x ≤ y.x) := by
    rw [hlive]
    exact flattenPairs_pairwise _ hallsorted (fun q hq => (hall q hq).1.1)
  rw [hsplit, List.pairwise_append, List.pairwise_cons] at hord
  have hafter : ∀ o ∈ m, a.x ≤ o.x := hord.2.1.1
  -- the colliding obstacle reaches right of the craft's tail
  have hreach : s.ship.x - s.ship.width / 2 < (processed s.ship.x a).x +
      (processed s.ship.x a).width := by
    have := (checkCollision_iff_hitBox (s.ship.update c) (processed s.ship.x a)).mp ha
    simp only [Spaceship.hitBox, Obstacle.hitBox, update_x, update_width] at this
    exact this.2.1
  rw [processed_x, processed_width, hwidth a (by rw [hsplit]; simp)] at hreach
  have hkeep : retained (m.map (processed s.ship.x)) = m.map (processed s.ship.x) := by
    unfold retained
    rw [List.filter_eq_self]
    intro o ho
    obtain ⟨o2, ho2, rfl⟩ := List.mem_map.mp ho
    have h1 := hafter o2 ho2
    have h2 := hwidth o2 (by rw [hsplit]; simp [ho2])
    have : ¬ ((processed s.ship.x o2).x + (processed s.ship.x o2).width < 0) := by
      rw [processed_x, processed_width, h2]
      linarith
    simpa using this
  have hobs : (gameLoop c r1 r2 s).obstacles =
      l ++ processed s.ship.x a :: m.map (processed s.ship.x) := by
    rw [gameLoop_first_collision c r1 r2 s hp l a m hsplit hm ha, hkeep]
    simp
  have hshape : (gameLoop c r1 r2 s).obstacles.map Obstacle.shape =
      (flattenPairs (ps ++ sp)).map Obstacle.shape := by
    rw [hobs, ← hlive, hsplit]
    simp only [List.map_append, List.map_cons, List.map_map, processed_shape]
    congr 2
    apply List.map_congr_left
    intro o _
    simp [processed_shape]
  obtain ⟨qs, hqs, hq⟩ := spawnedTogether_of_map_shape c (ps ++ sp) _ hshape
    (fun q hq => (hall q hq).2.1)
  refine ⟨qs, hqs, hq, ?_⟩
  intro h
  rw [hover] at h
  rcases h with h | h <;> exact absurd h (by decide)

lemma step_ship_x_width (c : Canvas) (e : Event) (s : State) :
    (step c e s).ship.x = s.ship.x ∧ (step c e s).ship.width = s.ship.width := by
  cases e with
  | tick r1 r2 =>
    by_cases hp : s.gameState = GameState.playing
    · simp only [step, gameLoop_ship c r1 r2 s hp, update_x, update_width, and_self]
    · simp only [step, gameLoop_of_not_playing c r1 r2 s hp, and_self]
  | pauseToggle =>
    simp only [step, togglePause]
    split_ifs <;> simp
  | thrustStart =>
    simp only [step, onThrustStart]
    split_ifs <;> simp [Spaceship.startThrust]
  | thrustEnd =>
    simp only [step, onThrustEnd]
    split_ifs <;> simp [Spaceship.stopThrust]
  | startOrReplay => simp [step, startGame, Spaceship.reset]

/-- Every event keeps the run invariant. -/
lemma runInv_step (c : Canvas) (e : Event) (s : State)
    (hship : 0 ≤ s.ship.x - s.ship.width / 2) (hinv : RunInv c s) :
    RunInv c (step c e s) := by
  cases e with
  | tick r1 r2 =>
    by_cases hp : s.gameState = GameState.playing
    · by_cases hc : ∀ o ∈ liveInTick c r1 r2 s,
          checkCollision (s.ship.update c) (processed s.ship.x o) = false
      · exact (runInv_tick_noCollision c r1 r2 s hp hinv hc).1
      · push_neg at hc
        obtain ⟨o, ho, hco⟩ := hc
        exact runInv_tick_collision c r1 r2 s hp hinv hship ⟨o, ho, by simpa using hco⟩
    · simp only [step, gameLoop_of_not_playing c r1 r2 s hp]
      exact hinv
  | pauseToggle =>
    obtain ⟨ps, hs, hsp, hplay⟩ := hinv
    have hsame : (togglePause s).ship = s.ship ∧ (togglePause s).obstacles = s.obstacles := by
      simp only [togglePause]
      split_ifs <;> simp
    refine ⟨ps, by simp only [step, hsame.2, hs], hsp, ?_⟩
    intro hgs
    simp only [step, hsame.1]
    apply hplay
    by_cases h1 : s.gameState = GameState.playing
    · exact Or.inl h1
    · by_cases h2 : s.gameState = GameState.paused
      · exact Or.inr h2
      · simp [step, togglePause, h1, h2] at hgs
  | thrustStart =>
    obtain ⟨ps, hs, hsp, hplay⟩ := hinv
    simp only [step, onThrustStart]
    split_ifs with h
    · exact ⟨ps, hs, hsp, fun _ => hplay (Or.inl h)⟩
    · exact ⟨ps, hs, hsp, hplay⟩
  | thrustEnd =>
    obtain ⟨ps, hs, hsp, hplay⟩ := hinv
    simp only [step, onThrustEnd]
    split_ifs with h
    · exact ⟨ps, hs, hsp, fun _ => hplay (Or.inl h)⟩
    · exact ⟨ps, hs, hsp, hplay⟩
  | startOrReplay =>
    exact ⟨[], by simp [step, startGame, flattenPairs], by simp, fun _ => by simp⟩

/-- The run invariant holds in every state of a run whose craft has its tail
on the canvas. -/
lemma reachable_runInv (c : Canvas) (s : State) (hr : Reachable c s) :
    0 ≤ s.ship.x - s.ship.width / 2 → RunInv c s := by
  induction hr with
  | start s0 =>
    intro _
    exact ⟨[], by simp [startGame, flattenPairs], by simp, fun _ => by simp⟩
  | step e hprev ih =>
    rename_i t
    intro hship
    have hxw := step_ship_x_width c e t
    rw [hxw.1, hxw.2] at hship
    exact runInv_step c e t hship (ih hship)

/-- Claim C14. In every state reachable from `startGame()` by `gameLoop`
ticks, pause toggles, thrust inputs and restarts (fixed canvas size; the
craft's tail `x − width/2` not left of the canvas, as for the craft of the
game), the live list has even length and is made of pairs by index parity:
the element at index `2k` is a top obstacle (`y = 0`), followed at index
`2k + 1` by the bottom obstacle built in the same spawn. While the game is
playing or paused the members of each pair have equal `x`, `width` and passed
flag, and a tick that completes without a collision keeps or retires each pair
as a whole. -/
theorem pairs_by_index_parity (c : Canvas) (s : State) (hr : Reachable c s)
    (hship : 0 ≤ s.ship.x - s.ship.width / 2) :
    s.obstacles.length = 2 * (pairsOf s.obstacles).length ∧
    s.obstacles = flattenPairs (pairsOf s.obstacles) ∧
    (∀ p ∈ pairsOf s.obstacles, p.1.y = 0 ∧ SpawnedTogether c p) ∧
    ((s.gameState = GameState.playing ∨ s.gameState = GameState.paused) →
      ∀ p ∈ pairsOf s.obstacles,
        p.1.x = p.2.x ∧ p.1.width = p.2.width ∧ p.1.isPassed = p.2.isPassed) ∧
    (∀ r1 r2 : UnitDraw, s.gameState = GameState.playing →
      (gameLoop c r1 r2 s).gameState = GameState.playing →
      (gameLoop c r1 r2 s).obstacles =
        flattenPairs (((pairsOf (liveInTick c r1 r2 s)).map (processedPair s.ship.x)).filter
          (fun p => !decide (p.1.x + p.1.width < 0)))) := by
  have hinv := reachable_runInv c s hr hship
  obtain ⟨ps, hs, hsp, hplay⟩ := hinv
  have hpairs : pairsOf s.obstacles = ps := by rw [hs, pairsOf_flattenPairs]
  rw [hpairs]
  refine ⟨by rw [hs, flattenPairs_length], hs, ?_, ?_, ?_⟩
  · intro p hp
    exact ⟨(hsp p hp).width_eq.2.2, hsp p hp⟩
  · intro hgs p hp
    have g := (hplay hgs).1 p hp
    exact ⟨g.1, g.2.1, g.2.2.1⟩
  · intro r1 r2 hp hn
    have hc := noCollision_of_still_playing c r1 r2 s hp hn
    obtain ⟨_, ps2, sp, hs2, hlive, hobs⟩ :=
      runInv_tick_noCollision c r1 r2 s hp ⟨ps, hs, hsp, hplay⟩ hc
    rw [hobs, hlive, pairsOf_flattenPairs]

/-- After the first tick on the 50-wide canvas the list holds one pair, and
the next tick (no collision) keeps it as a whole. -/
theorem pairs_by_index_parity_witness :
    (Reachable narrowCanvas (step narrowCanvas (Event.tick zeroDraw halfDraw) narrowStart) ∧
      0 ≤ (step narrowCanvas (Event.tick zeroDraw halfDraw) narrowStart).ship.x -
        (step narrowCanvas (Event.tick zeroDraw halfDraw) narrowStart).ship.width / 2) ∧
    ((step narrowCanvas (Event.tick zeroDraw halfDraw) narrowStart).obstacles.length =
        2 * (pairsOf
          (step narrowCanvas (Event.tick zeroDraw halfDraw) narrowStart).obstacles).length ∧
      (step narrowCanvas (Event.tick zeroDraw halfDraw) narrowStart).obstacles =
        flattenPairs (pairsOf
          (step narrowCanvas (Event.tick zeroDraw halfDraw) narrowStart).obstacles) ∧
      (∀ p ∈ pairsOf (step narrowCanvas (Event.tick zeroDraw halfDraw) narrowStart).obstacles,
        p.1.y = 0 ∧ SpawnedTogether narrowCanvas p) ∧
      (((step narrowCanvas (Event.tick zeroDraw halfDraw) narrowStart).gameState =
          GameState.playing ∨
        (step narrowCanvas (Event.tick zeroDraw halfDraw) narrowStart).gameState =
          GameState.paused) →
        ∀ p ∈ pairsOf (step narrowCanvas (Event.tick zeroDraw halfDraw) narrowStart).obstacles,
          p.1.x = p.2.x ∧ p.1.width = p.2.width ∧ p.1.isPassed = p.2.isPassed) ∧
      (∀ r1 r2 : UnitDraw,
        (step narrowCanvas (Event.tick zeroDraw halfDraw) narrowStart).gameState =
          GameState.playing →
        (gameLoop narrowCanvas r1 r2
          (step narrowCanvas (Event.tick zeroDraw halfDraw) narrowStart)).gameState =
            GameState.playing →
        (gameLoop narrowCanvas r1 r2
          (step narrowCanvas (Event.tick zeroDraw halfDraw) narrowStart)).obstacles =
          flattenPairs (((pairsOf (liveInTick narrowCanvas r1 r2
            (step narrowCanvas (Event.tick zeroDraw halfDraw) narrowStart))).map
              (processedPair
                (step narrowCanvas (Event.tick zeroDraw halfDraw) narrowStart).ship.x)).filter
            (fun p => !decide (p.1.x + p.1.width < 0))))) ∧
    (step narrowCanvas (Event.tick zeroDraw halfDraw) narrowStart).obstacles.length = 2 :=
  have hr : Reachable narrowCanvas (step narrowCanvas (Event.tick zeroDraw halfDraw) narrowStart) :=
    Reachable.step _ (Reachable.start _)
  have hship : 0 ≤ (step narrowCanvas (Event.tick zeroDraw halfDraw) narrowStart).ship.x -
      (step narrowCanvas (Event.tick zeroDraw halfDraw) narrowStart).ship.width / 2 := by
    rw [(step_ship_x_width narrowCanvas _ narrowStart).1,
      (step_ship_x_width narrowCanvas _ narrowStart).2]
    norm_num [narrowStart, startGame, initialState, Spaceship.initial, Spaceship.reset]
  have hlen : (step narrowCanvas (Event.tick zeroDraw halfDraw) narrowStart).obstacles.length =
      2 := by
    norm_num [step, gameLoop, narrowStart, narrowCanvas, startGame, initialState, setGameState,
      requestAnimationFrame, Spaceship.initial, Spaceship.reset, Spaceship.update,
      Spaceship.steppedVelocity, GravityPull, SpaceThrustPower, MaxVerticalVelocity,
      obstacleSpawnInterval, generateNewObstaclePair, newObstaclePair, Obstacle.new,
      zeroDraw, halfDraw, maxObstacleGap, minObstacleGap, obstacleLoop, Obstacle.update,
      obstacleSpeed, checkCollision]
  ⟨⟨hr, hship⟩, pairs_by_index_parity narrowCanvas _ hr hship, hlen⟩

/-! ## Passed is not clear -/

/-- Claim C18. Being counted as passed does not mean being clear of the
obstacle. In the run on a 50 × 600 canvas with draws `0` and `0.363` and no
thrust, the first tick spawns a pair, finds it behind the nose
(`48 + 40 < 100`) and raises the score from 0 to 1 without a collision; on the
second tick the craft has sunk to `y = 300.3` and `checkCollision` is true for
the bottom obstacle of that same pair, which ends the run. The pair's right
edge (86 after advancing) is behind the nose `Spaceship.x = 100` but not
behind the tail `Spaceship.x − width/2 = 70` of the collision box. -/
theorem passed_pair_can_still_collide :
    Reachable narrowCanvas grazingAfterTwo ∧
    (narrowStart.gameState = GameState.playing ∧ narrowStart.score = 0 ∧
      narrowStart.obstacles = []) ∧
    (grazingAfterOne.gameState = GameState.playing ∧ grazingAfterOne.score = 1 ∧
      grazingAfterOne.obstacles = [grazingTop, grazingBottom]) ∧
    (checkCollision (grazingAfterOne.ship.update narrowCanvas) grazingBottom.update = true ∧
      grazingAfterTwo.gameState = GameState.gameOver ∧ grazingAfterTwo.score = 1) ∧
    (grazingBottom.update.x + grazingBottom.update.width < grazingAfterOne.ship.x ∧
      grazingAfterOne.ship.x - grazingAfterOne.ship.width / 2 <
        grazingBottom.update.x + grazingBottom.update.width) := by
  have h1 : grazingAfterOne =
      { narrowStart with
        ship := { narrowStart.ship with y := 3001 / 10, verticalVelocity := 1 / 10 },
        obstacles := [grazingTop, grazingBottom], score := 1, frameCount := 1,
        animationFrameId := some 1, pendingFrames := [0, 1], nextFrameId := 2 } := by
    norm_num [grazingAfterOne, grazingTop, grazingBottom, grazingDraw, gameLoop, narrowStart,
      narrowCanvas, startGame, initialState, setGameState,
      requestAnimationFrame, Spaceship.initial, Spaceship.reset, Spaceship.update,
      Spaceship.steppedVelocity, GravityPull, SpaceThrustPower, MaxVerticalVelocity,
      obstacleSpawnInterval, generateNewObstaclePair, newObstaclePair, Obstacle.new,
      zeroDraw, maxObstacleGap, minObstacleGap, obstacleLoop, Obstacle.update,
      obstacleSpeed, checkCollision]
  refine ⟨Reachable.step (Event.tick zeroDraw zeroDraw)
      (Reachable.step (Event.tick zeroDraw grazingDraw) (Reachable.start _)),
    by simp [narrowStart, startGame], ?_, ?_, ?_⟩
  · rw [h1]
    simp [narrowStart, startGame]
  · rw [grazingAfterTwo, h1]
    norm_num [grazingTop, grazingBottom, gameLoop, narrowStart,
      narrowCanvas, startGame, initialState, setGameState,
      requestAnimationFrame, Spaceship.initial, Spaceship.reset, Spaceship.update,
      Spaceship.steppedVelocity, GravityPull, SpaceThrustPower, MaxVerticalVelocity,
      obstacleSpawnInterval, obstacleLoop, Obstacle.update,
      obstacleSpeed, checkCollision, endGame, scoreExceeds, setItem]
  · rw [h1]
    norm_num [grazingBottom, Obstacle.update, obstacleSpeed, narrowStart, startGame,
      initialState, Spaceship.initial, Spaceship.reset]

end Spaceshipgame
